import Mathlib

/-!
# Verification of the `td_parser` statement parser

A shallow embedding of the `td_parser` Python package (files
`td_parser/parser.py`, `td_parser/models.py`, `td_parser/exceptions.py`,
`td_parser/__init__.py` and `ccparse/export.py`) together with proofs about
the embedded definitions.

Conventions of the embedding:

* Python `Decimal` values are embedded as exact rationals (`ℚ`); the parse
  result of the `Decimal` string constructor is `PyDec`, which also covers
  the special values `NaN` and `Infinity` that the constructor accepts.
* Python exceptions are embedded as the `PyExc` error type of an `Except`
  monad.  The `TDParserError` hierarchy of `exceptions.py` is the `PError`
  type; `KeyError`, `ValueError` and `IndexError` are untyped Python errors
  outside that hierarchy and get their own constructors.
* A pdfplumber word is a `Word` (text, left coordinate `x0`, vertical
  coordinate `top`); a page is embedded as its list of visual rows, the
  output of `_words_by_row` (row grouping itself is geometry of the external
  PDF library and is not modelled).
* Character-level string operations (`str.upper`, `re` character classes,
  `strptime`) are modelled for the ASCII range, which covers every string
  the parser manipulates.
-/

namespace TD

/-- A decidable equality for `Except`, used to evaluate the parser on
concrete inputs. -/
instance {ε α : Type} [DecidableEq ε] [DecidableEq α] : DecidableEq (Except ε α) := fun a b =>
  match a, b with
  | .ok x, .ok y =>
    match decEq x y with
    | isTrue h => isTrue (by rw [h])
    | isFalse h => isFalse (fun hh => by cases hh; exact h rfl)
  | .error x, .error y =>
    match decEq x y with
    | isTrue h => isTrue (by rw [h])
    | isFalse h => isFalse (fun hh => by cases hh; exact h rfl)
  | .ok _, .error _ => isFalse (fun hh => by cases hh)
  | .error _, .ok _ => isFalse (fun hh => by cases hh)

/-! ## Characters and strings -/

/-- Python whitespace (the `\s` class and `str.strip`), ASCII range. -/
def isPyWs (c : Char) : Bool :=
  c = ' ' || c = '\t' || c = '\n' || c = '\x0d' || c = '\x0b' || c = '\x0c'

/-- ASCII lower-casing (model of `str.lower` on the characters the parser
meets): code points 65-90 shift up by 32, everything else is fixed. -/
def asciiLower (c : Char) : Char :=
  if 65 ≤ c.toNat ∧ c.toNat ≤ 90 then Char.ofNat (c.toNat + 32) else c

/-- ASCII upper-casing (model of `str.upper`): code points 97-122 shift
down by 32, everything else is fixed. -/
def asciiUpper (c : Char) : Char :=
  if 97 ≤ c.toNat ∧ c.toNat ≤ 122 then Char.ofNat (c.toNat - 32) else c

/-- `str.upper` on a whole string. -/
def strUpper (s : String) : String := ⟨s.data.map asciiUpper⟩

/-- Is `pat` a prefix of `l`? -/
def isPre : List Char → List Char → Bool
  | [], _ => true
  | _ :: _, [] => false
  | p :: ps, c :: cs => p = c && isPre ps cs

/-- Does `pat` occur as a contiguous sublist of `l`
(Python's `pat in s` on strings)? -/
def containsL (l pat : List Char) : Bool :=
  match l with
  | [] => isPre pat []
  | _ :: t => isPre pat l || containsL t pat

/-- Python's substring test `pat in s`. -/
def strContains (s pat : String) : Bool := containsL s.data pat.data

/-- Strip `isPyWs` characters from both ends (Python `str.strip`). -/
def pyStripL (l : List Char) : List Char :=
  ((l.dropWhile isPyWs).reverse.dropWhile isPyWs).reverse

/-- Python `str.strip` on a whole string. -/
def pyStrip (s : String) : String := ⟨pyStripL s.data⟩

/-- Python `str.startswith`. -/
def strStartsWith (s pat : String) : Bool := isPre pat.data s.data

/-- Numeric value of a decimal digit character. -/
def digVal (c : Char) : ℕ := c.toNat - 48

/-- Value of a digit string, most significant first. -/
def digitsToNat : List Char → ℕ → ℕ
  | [], acc => acc
  | c :: t, acc => digitsToNat t (acc * 10 + digVal c)

/-- Are all underscores legally placed (flanked by digits on both sides)?
Python's numeric-literal underscore rule, used by `Decimal(str)` and
`int(str)`. -/
def usOkAux : Option Char → List Char → Bool
  | _, [] => true
  | prev, c :: rest =>
    if c = '_' then
      (match prev with
       | some p => p.isDigit
       | none => false) &&
      (match rest with
       | r :: _ => r.isDigit
       | [] => false) && usOkAux (some c) rest
    else usOkAux (some c) rest

def usOk (l : List Char) : Bool := usOkAux none l

/-! ## Python `Decimal` and the exception model -/

/-- The result of Python's `Decimal` string constructor: a finite exact
value, or one of the special values the constructor also accepts.  Quiet
and signalling NaN are not distinguished and the sign of a NaN is dropped:
no behaviour of this code base depends on either. -/
inductive PyDec : Type
  | num (q : ℚ)
  | nan
  | inf
  | negInf
  deriving DecidableEq, Repr

/-- Unary minus on a `Decimal`. -/
def PyDec.neg : PyDec → PyDec
  | .num q => .num (-q)
  | .nan => .nan
  | .inf => .negInf
  | .negInf => .inf

/-- `-abs(d)`, used by the balance-summary extractor for raw tokens with a
leading minus sign. -/
def PyDec.negAbs : PyDec → PyDec
  | .num q => .num (-|q|)
  | .nan => .nan
  | .inf => .negInf
  | .negInf => .negInf

/-- The `TDParserError` hierarchy of `exceptions.py`.  A
`BalanceMismatchError` carries the computed and the stated balance (the
Python message string interpolates exactly these two values). -/
inductive PError : Type
  | balanceMismatch (calculated stated : ℚ)
  | dataIntegrity (msg : String)
  deriving DecidableEq, Repr

/-- Python exceptions the parser can raise: the typed `TDParserError`
family, plus the untyped built-in errors that escape from dict lookups,
`strptime` and list indexing. -/
inductive PyExc : Type
  | parserError (e : PError)
  | keyError (key : String)
  | valueError (msg : String)
  | indexError
  deriving DecidableEq, Repr

/-- Is the exception part of the `TDParserError` taxonomy? -/
def PyExc.isParserError : PyExc → Bool
  | .parserError _ => true
  | _ => false

/-- The exact value `mant · 10^scale`, built with `mkRat` (not with the
`@[irreducible]` field arithmetic of `ℚ`) so that concrete parses evaluate
inside the kernel. -/
def decValue (mant : ℕ) (scale : ℤ) : ℚ :=
  if 0 ≤ scale then mkRat (mant * 10 ^ scale.toNat) 1 else mkRat mant (10 ^ (-scale).toNat)

/-- Split a char list at the first occurrence of `c`; the second component
is `none` when `c` does not occur. -/
def splitFirst (c : Char) : List Char → (List Char × Option (List Char))
  | [] => ([], none)
  | x :: t =>
    if x = c then ([], some t)
    else
      let p := splitFirst c t
      (x :: p.1, p.2)

/-- Mantissa-with-exponent branch of the `Decimal` grammar, on an already
lower-cased, sign-free, underscore-free char list:
`digits [. digits] [e [sign] digits]` with at least one mantissa digit. -/
def parseNumericLow (low : List Char) : Option PyDec :=
  let em := splitFirst 'e' low
  let dm := splitFirst '.' em.1
  let ip := dm.1
  let fp := (dm.2).getD []
  if ip.all Char.isDigit && fp.all Char.isDigit && !(ip.isEmpty && fp.isEmpty) then
    match em.2 with
    | none => some (.num (decValue (digitsToNat (ip ++ fp) 0) (-(fp.length : ℤ))))
    | some ex =>
      let sd : Bool × List Char :=
        match ex with
        | '+' :: t => (true, t)
        | '-' :: t => (false, t)
        | t => (true, t)
      if !sd.2.isEmpty && sd.2.all Char.isDigit then
        let e : ℤ := if sd.1 then (digitsToNat sd.2 0 : ℤ) else -(digitsToNat sd.2 0 : ℤ)
        some (.num (decValue (digitsToNat (ip ++ fp) 0) (e - (fp.length : ℤ))))
      else none
  else none

/-- Sign-free branch dispatch of the `Decimal` grammar on a lower-cased
char list: infinities, NaN forms (optionally with a digit payload), or a
numeric mantissa. -/
def parseDecCore (low : List Char) : Option PyDec :=
  if low = "inf".data || low = "infinity".data then some .inf
  else
    match low with
    | 'n' :: 'a' :: 'n' :: rest =>
      if rest.all Char.isDigit then some .nan else none
    | 's' :: 'n' :: 'a' :: 'n' :: rest =>
      if rest.all Char.isDigit then some .nan else none
    | _ => parseNumericLow low

/-- Model of Python's `Decimal(str)` constructor on a char list: strip
surrounding whitespace, validate and drop underscores, take an optional
sign, then parse case-insensitively; `none` is an `InvalidOperation`. -/
def parsePyDecL (l : List Char) : Option PyDec :=
  let l1 := pyStripL l
  if usOk l1 then
    let l2 := l1.filter (fun c => c ≠ '_')
    let low := l2.map asciiLower
    match low with
    | '+' :: rest => parseDecCore rest
    | '-' :: rest => (parseDecCore rest).map PyDec.neg
    | _ => parseDecCore low
  else none

/-- Python's `Decimal(str)` constructor. -/
def parsePyDecimal (s : String) : Option PyDec := parsePyDecL s.data

/-! ## `_parse_amount` (parser.py lines 43-50) -/

/-- The character class of `re.sub(r"[+\-$,CR\s]", "", ...)`. -/
def isStripChar (c : Char) : Bool :=
  c = '+' || c = '-' || c = '$' || c = ',' || c = 'C' || c = 'R' || isPyWs c

/-- `_parse_amount`: detect a case-insensitive `CR` substring, delete every
character of the class `[+\-$,CR\s]` from the upper-cased raw text, feed
the remainder to `Decimal`, and negate on `CR`;
an invalid remainder raises `DataIntegrityError`. -/
def _parse_amount (raw : String) : Except PyExc PyDec :=
  let up := strUpper raw
  let is_credit := strContains up "CR"
  let cleaned : String := ⟨up.data.filter (fun c => !isStripChar c)⟩
  match parsePyDecimal cleaned with
  | none => .error (.parserError (.dataIntegrity ("Cannot parse amount: '" ++ raw ++ "'")))
  | some value => .ok (if is_credit then value.neg else value)

/-! ## Dates and `_parse_date` (parser.py lines 53-57) -/

/-- A calendar date as produced by `datetime.date`. -/
structure PyDate : Type where
  year : ℤ
  month : ℕ
  day : ℕ
  deriving DecidableEq, Repr

def monthAbbrs : List String :=
  ["Jan", "Feb", "Mar", "Apr", "May", "Jun", "Jul", "Aug", "Sep", "Oct", "Nov", "Dec"]

def monthFulls : List String :=
  ["January", "February", "March", "April", "May", "June", "July", "August",
   "September", "October", "November", "December"]

def isLeap (y : ℤ) : Bool := y % 4 = 0 && (y % 100 ≠ 0 || y % 400 = 0)

def daysInMonth (m : ℕ) (y : ℤ) : ℕ :=
  if m = 2 then (if isLeap y then 29 else 28)
  else if m = 4 || m = 6 || m = 9 || m = 11 then 30
  else 31

/-- Index (1-based) of the name whose lower-casing equals `low`. -/
def monthIdx : List String → ℕ → List Char → Option ℕ
  | [], _, _ => none
  | n :: rest, i, low => if n.data.map asciiLower = low then some i else monthIdx rest (i + 1) low

/-- The space-insertion step of `_parse_date`: if the string is longer than
3 characters and its 4th character is a digit, insert a space after the
month abbreviation. -/
def insertSpace4 (raw : String) : String :=
  match raw.data with
  | a :: b :: c :: d :: rest => if d.isDigit then ⟨a :: b :: c :: ' ' :: d :: rest⟩ else raw
  | _ => raw

/-- `strptime(f"{raw} {year}", "%b %d %Y")` applied to the space-inserted
token: a case-insensitive 3-letter month abbreviation, whitespace, a 1- or
2-digit day in range for the month (the `%d` pattern admits 1..31 and
`datetime` then checks the month length — both rejections are the same
`ValueError`). -/
def parseMonthDay (l : List Char) (year : ℤ) : Option PyDate :=
  match l with
  | c1 :: c2 :: c3 :: rest =>
    match monthIdx monthAbbrs 1 ([c1, c2, c3].map asciiLower) with
    | none => none
    | some m =>
      let ws := rest.takeWhile isPyWs
      let rest' := rest.dropWhile isPyWs
      if ws.isEmpty then none
      else
        match rest' with
        | [d1] =>
          if d1.isDigit then
            let d := digVal d1
            if 1 ≤ d && d ≤ daysInMonth m year then some ⟨year, m, d⟩ else none
          else none
        | [d1, d2] =>
          if d1.isDigit && d2.isDigit then
            let d := 10 * digVal d1 + digVal d2
            if 1 ≤ d && d ≤ daysInMonth m year then some ⟨year, m, d⟩ else none
          else none
        | _ => none
  | _ => none

/-- `_parse_date`: parse `'Jul07'` (no space) or `'Jul 07'` into a date
with the given year; an unparseable token is an untyped `ValueError` from
`strptime`. -/
def _parse_date (raw : String) (year : ℤ) : Except PyExc PyDate :=
  let raw' := insertSpace4 raw
  match parseMonthDay raw'.data year with
  | some d => .ok d
  | none => .error (.valueError ("time data '" ++ raw ++ "' does not match format"))

/-! ## Words, rows and column bands -/

/-- A pdfplumber word: text plus left (`x0`) and vertical (`top`)
coordinates. -/
structure Word : Type where
  text : String
  x0 : ℚ
  top : ℚ
  deriving DecidableEq, Repr

/-- A visual row: the words sharing a rounded `top`, sorted by `x0`
(the output of `_words_by_row`). -/
abbrev Row := List Word

/-- The concatenation `"".join(w["text"] for w in row)`. -/
def rowJoined (row : Row) : String := String.join (row.map (·.text))

def COL_ACTIVITY : ℚ × ℚ := (70, 115)
def COL_POST : ℚ × ℚ := (125, 165)
def COL_REF : ℚ × ℚ := (185, 230)
def COL_DESC : ℚ × ℚ := (255, 510)
def COL_AMOUNT : ℚ × ℚ := (515, 580)

/-- `_in_col`: `col[0] <= word["x0"] <= col[1]`. -/
def _in_col (w : Word) (col : ℚ × ℚ) : Bool := col.1 ≤ w.x0 && w.x0 ≤ col.2

/-- Does the currency pattern `\$[\d,]+\.\d{2}(?:CR)?` match at the head of
`l`?  The character class `[\d,]` cannot contain `.`, so the regex engine
has no backtracking freedom here and the match test is this direct scan. -/
def currencyAt : List Char → Bool
  | '$' :: rest =>
    let ds := rest.takeWhile (fun c => c.isDigit || c = ',')
    let rest' := rest.dropWhile (fun c => c.isDigit || c = ',')
    !ds.isEmpty &&
      (match rest' with
       | '.' :: a :: b :: _ => a.isDigit && b.isDigit
       | _ => false)
  | _ => false

def currencySearchL : List Char → Bool
  | [] => false
  | l@(_ :: t) => currencyAt l || currencySearchL t

/-- `_RE_CURRENCY.search`: does `\$[\d,]+\.\d{2}(?:CR)?` match anywhere in
the text? -/
def currencySearch (s : String) : Bool := currencySearchL s.data

/-- Full match of `_RE_TXN_DATE`, the anchored pattern
`^(?:Jan|...|Dec)\d{2}$` (case-sensitive, exactly five characters). -/
def txnDateMatch (s : String) : Bool :=
  match s.data with
  | [c1, c2, c3, d1, d2] =>
    monthAbbrs.any (fun n => n.data = [c1, c2, c3]) && d1.isDigit && d2.isDigit
  | _ => false

/-! ## Data model (models.py) -/

/-- `Transaction` (frozen dataclass): constructing a value is the only way
to change one — the continuation-line logic replaces the last list entry
with a fresh copy. -/
structure Transaction : Type where
  activity_date : PyDate
  post_date : PyDate
  reference_number : String
  description : String
  amount : PyDec
  deriving DecidableEq, Repr

/-- `BalanceSummary` (frozen dataclass).  All eight amounts are finite
decimals, embedded as exact rationals. -/
structure BalanceSummary : Type where
  previous_balance : ℚ
  purchases : ℚ
  credits : ℚ
  fees : ℚ
  interest : ℚ
  new_balance : ℚ
  available_credit : ℚ
  minimum_payment : ℚ
  deriving DecidableEq, Repr

/-- `Statement`. -/
structure Statement : Type where
  entity_name : String
  primary_cardholder : String
  account_suffix : String
  billing_period_start : PyDate
  billing_period_end : PyDate
  balance_summary : BalanceSummary
  current_points : ℤ
  transactions : List Transaction
  deriving DecidableEq, Repr

/-! ## `int(str)` and `_extract_points` (parser.py lines 140-148) -/

/-- Model of Python's `int(str)`: strip whitespace, validate and drop
underscores, optional sign, then a non-empty digit string. -/
def pyInt (s : String) : Option ℤ :=
  let l := pyStripL s.data
  if usOk l then
    let l := l.filter (fun c => c ≠ '_')
    match l with
    | '+' :: d => if !d.isEmpty && d.all Char.isDigit then some (digitsToNat d 0 : ℤ) else none
    | '-' :: d => if !d.isEmpty && d.all Char.isDigit then some (-(digitsToNat d 0 : ℤ)) else none
    | d => if !d.isEmpty && d.all Char.isDigit then some (digitsToNat d 0 : ℤ) else none
  else none

/-- `str.replace(",", "")`. -/
def removeCommas (s : String) : String := ⟨s.data.filter (fun c => c ≠ ',')⟩

/-- The reversed-word scan of `_extract_points`: first token whose
comma-stripped text parses as an `int`. -/
def firstIntRev : List Word → Option ℤ
  | [] => none
  | w :: t =>
    match pyInt (removeCommas w.text) with
    | some n => some n
    | none => firstIntRev t

/-- `_extract_points`: on each row whose joined text contains
`NewPointsBalance`, scan the words right to left for an integer; keep
looking at later rows when none parses; `DataIntegrityError` when the scan
exhausts all rows. -/
def _extract_points : List Row → Except PyExc ℤ
  | [] => .error (.parserError (.dataIntegrity "NewPointsBalance not found"))
  | r :: rest =>
    if strContains (rowJoined r) "NewPointsBalance" then
      match firstIntRev r.reverse with
      | some n => .ok n
      | none => _extract_points rest
    else _extract_points rest

/-! ## `_extract_header` (parser.py lines 60-84) -/

/-- The mapping `_extract_header` builds; every field is optional. -/
structure Header : Type where
  cardholder : Option String := none
  entity : Option String := none
  suffix : Option String := none
  billing : Option (String × String) := none
  deriving DecidableEq, Repr

/-- Python truthiness of `result.get(key)` for string fields: absent or
empty both count as missing. -/
def falsyStr : Option String → Bool
  | none => true
  | some s => s.isEmpty

/-- `re.search(r"(\d{4})$", s)`: the last four characters, when they are
all digits. -/
def last4digits (s : String) : Option String :=
  match s.data.reverse with
  | a :: b :: c :: d :: _ =>
    if a.isDigit && b.isDigit && c.isDigit && d.isDigit then some ⟨[d, c, b, a]⟩ else none
  | _ => none

/-- `str.replace(" ", "")`. -/
def removeSpaces (s : String) : String := ⟨s.data.filter (fun c => c ≠ ' ')⟩

/-- `\w` (ASCII model). -/
def isWordChar (c : Char) : Bool := c.isAlphanum || c = '_'

/-- Match of `(\w+\d+,\d{4})-(\w+\d+,\d{4})` anchored at the head of `l`.
`,` is not a `\w` character, so `\w+\d+` must consume the maximal `\w` run,
which must be at least two characters long and end in a digit; the engine
has no other backtracking freedom. -/
def billingAt (l : List Char) : Option (String × String) :=
  let r1 := l.takeWhile isWordChar
  let rest1 := l.dropWhile isWordChar
  if r1.length ≥ 2 && (r1.getLast?.elim false Char.isDigit) then
    match rest1 with
    | ',' :: a1 :: b1 :: c1 :: d1 :: '-' :: rest2 =>
      if [a1, b1, c1, d1].all Char.isDigit then
        let r2 := rest2.takeWhile isWordChar
        let rest3 := rest2.dropWhile isWordChar
        if r2.length ≥ 2 && (r2.getLast?.elim false Char.isDigit) then
          match rest3 with
          | ',' :: a2 :: b2 :: c2 :: d2 :: _ =>
            if [a2, b2, c2, d2].all Char.isDigit then
              some (⟨r1 ++ ',' :: [a1, b1, c1, d1]⟩, ⟨r2 ++ ',' :: [a2, b2, c2, d2]⟩)
            else none
          | _ => none
        else none
      else none
    | _ => none
  else none

def billingSearchL : List Char → Option (String × String)
  | [] => none
  | l@(_ :: t) =>
    match billingAt l with
    | some p => some p
    | none => billingSearchL t

/-- `re.search(r"(\w+\d+,\d{4})-(\w+\d+,\d{4})", s)`: the two groups of the
leftmost match. -/
def findBilling (s : String) : Option (String × String) := billingSearchL s.data

/-- One row of the `_extract_header` loop body. -/
def headerRowStep (h : Header) (row : Row) : Except PyExc Header :=
  match row with
  | [] => .error .indexError
  | w0 :: _ =>
    let joined := rowJoined row
    let top := w0.top
    let x0 := w0.x0
    let h := if falsyStr h.cardholder && x0 > 400 && top < 35 then { h with cardholder := some w0.text } else h
    let h := if falsyStr h.entity && x0 > 400 && 35 < top && top < 50 then { h with entity := some w0.text } else h
    let h :=
      if falsyStr h.suffix && strContains joined "AccountNumberEndingin:" then
        match last4digits joined with
        | some s => { h with suffix := some s }
        | none => h
      else h
    let h :=
      if h.billing.isNone && top < 70 then
        match findBilling (removeSpaces joined) with
        | some p => { h with billing := some p }
        | none => h
      else h
    .ok h

/-- `_extract_header`: fold the row step over the page-1 rows, starting
from the empty mapping.  An empty row makes `row[0]` raise `IndexError`. -/
def _extract_header (rows : List Row) : Except PyExc Header :=
  rows.foldlM headerRowStep {}

/-! ## `_parse_billing_period` (parser.py lines 87-90) -/

/-- Months whose lower-cased full name is a prefix of `low`; returns the
1-based index and the remainder.  No full month name is a prefix of
another, so this is the `%B` match. -/
def monthFullPre : List String → ℕ → List Char → Option (ℕ × List Char)
  | [], _, _ => none
  | n :: rest, i, low =>
    if isPre (n.data.map asciiLower) low then some (i, low.drop n.length)
    else monthFullPre rest (i + 1) low

/-- `strptime(s, "%B%d,%Y")` consuming the whole string: full month name
(case-insensitive), 1- or 2-digit day, `,`, exactly four year digits, and
the day must exist in that month. -/
def parseFullDate (s : String) : Option PyDate :=
  let low := s.data.map asciiLower
  match monthFullPre monthFulls 1 low with
  | none => none
  | some (m, rest) =>
    let ds := rest.takeWhile Char.isDigit
    let rest' := rest.dropWhile Char.isDigit
    let d? : Option ℕ :=
      match ds with
      | [d1] => some (digVal d1)
      | [d1, d2] => some (10 * digVal d1 + digVal d2)
      | _ => none
    match d? with
    | none => none
    | some d =>
      match rest' with
      | ',' :: a :: b :: c :: e :: [] =>
        if [a, b, c, e].all Char.isDigit then
          let y : ℤ := (digitsToNat [a, b, c, e] 0 : ℤ)
          if 1 ≤ d && d ≤ daysInMonth m y then some ⟨y, m, d⟩ else none
        else none
      | _ => none

/-- `_parse_billing_period`: parse both ends with `strptime "%B%d,%Y"`;
failures are untyped `ValueError`s. -/
def _parse_billing_period (start_str end_str : String) : Except PyExc (PyDate × PyDate) :=
  match parseFullDate start_str with
  | none => .error (.valueError ("time data '" ++ start_str ++ "' does not match format"))
  | some s =>
    match parseFullDate end_str with
    | none => .error (.valueError ("time data '" ++ end_str ++ "' does not match format"))
    | some e => .ok (s, e)

/-! ## `_extract_balance_summary` (parser.py lines 93-137) -/

/-- The eight balance-summary fields, the values of `label_map`. -/
inductive BField : Type
  | previous_balance | purchases | credits | fees | interest
  | new_balance | available_credit | minimum_payment
  deriving DecidableEq, Repr

/-- `label_map`, in source order. -/
def labelMap : List (String × BField) :=
  [("PreviousBalance", .previous_balance),
   ("Purchases", .purchases),
   ("OtherCredits", .credits),
   ("FeesCharged", .fees),
   ("InterestCharged", .interest),
   ("NewBalance", .new_balance),
   ("Available", .available_credit),
   ("MinimumPaymentDue", .minimum_payment)]

/-- The Python field name of a `BField` (for the missing-fields message). -/
def fieldName : BField → String
  | .previous_balance => "previous_balance"
  | .purchases => "purchases"
  | .credits => "credits"
  | .fees => "fees"
  | .interest => "interest"
  | .new_balance => "new_balance"
  | .available_credit => "available_credit"
  | .minimum_payment => "minimum_payment"

/-- The `values` dict of the extractor. -/
def Vals : Type := BField → Option ℚ

def initVals : Vals := fun _ => none

def setVal (v : Vals) (f : BField) (q : ℚ) : Vals :=
  fun g => if g = f then some q else v g

/-- `next((w["x0"] for w in row if label in w["text"]), 0)`. -/
def labelX (row : Row) (label : String) : ℚ :=
  ((row.find? (fun w => strContains w.text label)).map (·.x0)).getD 0

/-- The currency tokens strictly right of the label coordinate. -/
def candidatesOf (row : Row) (lx : ℚ) : List Word :=
  row.filter (fun w => lx < w.x0 && currencySearch w.text)

/-- `min(candidates, key=lambda w: w["x0"])`: Python's `min` keeps the
first element among ties. -/
def minByX0 (c : Word) (cs : List Word) : Word :=
  cs.foldl (fun b w => if w.x0 < b.x0 then w else b) c

/-- The finite value of a parsed amount.  Every candidate token matched the
currency pattern, so its cleaned text contains a decimal point and
`Decimal` can only return a finite value or fail; the default branches are
unreachable on this call path. -/
def pydecToRat : PyDec → ℚ
  | .num q => q
  | _ => 0

/-- `amount = _parse_amount(raw)` followed by the leading-minus forcing
`if raw.startswith("-"): amount = -abs(amount)` of the extractor. -/
def amountForToken (raw : String) : Except PyExc ℚ :=
  match _parse_amount raw with
  | .error e => .error e
  | .ok amount => .ok (pydecToRat (if strStartsWith raw "-" then amount.negAbs else amount))

/-- Body of the inner `for label, key in label_map.items()` loop. -/
def processLabel (row : Row) (joined : String) (v : Vals) (p : String × BField) :
    Except PyExc Vals :=
  if (v p.2).isSome then .ok v
  else if !strContains joined p.1 then .ok v
  else
    match candidatesOf row (labelX row p.1) with
    | [] => .ok v
    | c :: cs =>
      match amountForToken (minByX0 c cs).text with
      | .error e => .error e
      | .ok q => .ok (setVal v p.2 q)

/-- Body of the outer `for row in rows` loop. -/
def processRow (v : Vals) (row : Row) : Except PyExc Vals :=
  labelMap.foldlM (processLabel row (rowJoined row)) v

/-- `"Missing balance fields: ['a', 'b']"`, Python's list repr. -/
def missingMsg (missing : List BField) : String :=
  "Missing balance fields: [" ++
    String.intercalate ", " (missing.map (fun f => "'" ++ fieldName f ++ "'")) ++ "]"

/-- `_extract_balance_summary`: walk every row, fill each field from the
first row that contains its label and has a currency token right of it,
and fail with `DataIntegrityError` when any field is still missing at the
end (or, earlier, when a selected token does not parse). -/
def _extract_balance_summary (rows : List Row) : Except PyExc BalanceSummary :=
  match rows.foldlM processRow initVals with
  | .error e => .error e
  | .ok v =>
    let missing := (labelMap.map (·.2)).filter (fun f => (v f).isNone)
    if !missing.isEmpty then .error (.parserError (.dataIntegrity (missingMsg missing)))
    else
      .ok { previous_balance := (v .previous_balance).getD 0
            purchases := (v .purchases).getD 0
            credits := (v .credits).getD 0
            fees := (v .fees).getD 0
            interest := (v .interest).getD 0
            new_balance := (v .new_balance).getD 0
            available_credit := (v .available_credit).getD 0
            minimum_payment := (v .minimum_payment).getD 0 }

/-! ## `_extract_transactions` (parser.py lines 151-212) -/

def stopLabels : List String := ["Fees", "TOTALFEESFORTHISPERIOD", "TotalFees"]

/-- `any(s in joined for s in stop_labels)`. -/
def isStopJoined (joined : String) : Bool := stopLabels.any (fun s => strContains joined s)

/-- `"ActivityDate" in joined or "CardNumberEnding" in joined`. -/
def isSkipJoined (joined : String) : Bool :=
  strContains joined "ActivityDate" || strContains joined "CardNumberEnding"

def dateWordsOf (row : Row) : List Word :=
  row.filter (fun w => _in_col w COL_ACTIVITY && txnDateMatch w.text)

def postWordsOf (row : Row) : List Word := row.filter (fun w => _in_col w COL_POST)
def refWordsOf (row : Row) : List Word := row.filter (fun w => _in_col w COL_REF)
def descWordsOf (row : Row) : List Word := row.filter (fun w => _in_col w COL_DESC)
def amtWordsOf (row : Row) : List Word := row.filter (fun w => _in_col w COL_AMOUNT)

/-- `" ".join(w["text"] for w in ws)`. -/
def joinSpace (ws : List Word) : String := String.intercalate " " (ws.map (·.text))

/-- The continuation-line replacement: a fresh frozen copy of the last
transaction with the extra text appended to its description; all other
fields are copied unchanged. -/
def amendedCopy (t : Transaction) (extra : String) : Transaction :=
  { activity_date := t.activity_date
    post_date := t.post_date
    reference_number := t.reference_number
    description := t.description ++ " " ++ extra
    amount := t.amount }

/-- The row loop of `_extract_transactions`.  The flag is
`in_transactions`; hitting a stop label returns the accumulator (the
`return transactions` that exits both loops). -/
def txnRowsGo (year : ℤ) (billingEndMonth : ℕ) :
    List Row → Bool → List Transaction → Except PyExc (List Transaction)
  | [], _, acc => .ok acc
  | row :: rest, false, acc =>
    if pyStrip (rowJoined row) = "Transactions" then txnRowsGo year billingEndMonth rest true acc
    else txnRowsGo year billingEndMonth rest false acc
  | row :: rest, true, acc =>
    let joined := rowJoined row
    if isStopJoined joined then .ok acc
    else if isSkipJoined joined then txnRowsGo year billingEndMonth rest true acc
    else
      match dateWordsOf row with
      | [] =>
        let dw := descWordsOf row
        if dw.isEmpty then txnRowsGo year billingEndMonth rest true acc
        else
          match acc.getLast? with
          | some last =>
            txnRowsGo year billingEndMonth rest true
              (acc.dropLast ++ [amendedCopy last (joinSpace dw)])
          | none => txnRowsGo year billingEndMonth rest true acc
      | dword :: _ =>
        match postWordsOf row, refWordsOf row, amtWordsOf row with
        | pw :: _, rw :: _, aw :: _ =>
          let act_raw := dword.text
          let txn_year := if act_raw.take 3 = "Jan" && billingEndMonth = 12 then year + 1 else year
          match _parse_date act_raw txn_year with
          | .error e => .error e
          | .ok ad =>
            match _parse_date pw.text txn_year with
            | .error e => .error e
            | .ok pd =>
              match _parse_amount aw.text with
              | .error e => .error e
              | .ok amt =>
                txnRowsGo year billingEndMonth rest true
                  (acc ++ [{ activity_date := ad
                             post_date := pd
                             reference_number := rw.text
                             description := joinSpace (descWordsOf row)
                             amount := amt }])
        | _, _, _ => txnRowsGo year billingEndMonth rest true acc

/-- `_extract_transactions`: scan all pages' rows in order.  Nothing in the
loop body depends on page boundaries and the early `return` leaves both
loops at once, so iterating the nested loops equals iterating the
concatenation of the pages' row lists. -/
def _extract_transactions (pages : List (List Row)) (year : ℤ) (billingEndMonth : ℕ) :
    Except PyExc (List Transaction) :=
  txnRowsGo year billingEndMonth pages.flatten false []

/-! ## `_validate_balance` (parser.py lines 215-226) -/

/-- `_validate_balance`: recompute the new balance with exact decimal
arithmetic and compare exactly; a mismatch raises `BalanceMismatchError`
carrying the computed and the stated value. -/
def _validate_balance (s : BalanceSummary) : Except PyExc Unit :=
  let calculated := s.previous_balance + s.purchases - s.credits + s.fees + s.interest
  if calculated ≠ s.new_balance then
    .error (.parserError (.balanceMismatch calculated s.new_balance))
  else .ok ()

/-! ## `TDStatementParser.parse` (parser.py lines 229-258) -/

/-- `TDStatementParser.parse`, with the document abstracted as its pages'
row lists.  `pdf.pages[0]` on an empty document is an `IndexError`; the
`header["billing"]` lookup on a missing key is a `KeyError`. -/
def parse (pages : List (List Row)) : Except PyExc Statement :=
  match pages with
  | [] => .error .indexError
  | page1_rows :: _ =>
    match _extract_header page1_rows with
    | .error e => .error e
    | .ok header =>
      match _extract_balance_summary page1_rows with
      | .error e => .error e
      | .ok balance =>
        match _extract_points page1_rows with
        | .error e => .error e
        | .ok points =>
          match header.billing with
          | none => .error (.keyError "billing")
          | some billing =>
            match _parse_billing_period billing.1 billing.2 with
            | .error e => .error e
            | .ok (billing_start, billing_end) =>
              match _extract_transactions pages billing_end.year billing_end.month with
              | .error e => .error e
              | .ok transactions =>
                match _validate_balance balance with
                | .error e => .error e
                | .ok () =>
                  .ok { entity_name := (header.entity).getD ""
                        primary_cardholder := (header.cardholder).getD ""
                        account_suffix := (header.suffix).getD ""
                        billing_period_start := billing_start
                        billing_period_end := billing_end
                        balance_summary := balance
                        current_points := points
                        transactions := transactions }

/-! ## `ccparse/export.py` -/

/-- Round-half-even of the fraction `a / b` (`b ≠ 0`), by integer
division. -/
def rheNat (a b : ℕ) : ℕ :=
  let q := a / b
  let r := a % b
  if 2 * r < b then q else if b < 2 * r then q + 1 else if q % 2 = 0 then q else q + 1

/-- Is `2^l ≤ n / d` (for positive `n`, `d`)?  Stated by
cross-multiplication so it evaluates with integer arithmetic. -/
def pow2le (l : ℤ) (n d : ℕ) : Bool :=
  if 0 ≤ l then 2 ^ l.toNat * d ≤ n else d ≤ n * 2 ^ (-l).toNat

/-- `⌊log₂ n⌋` (0 for `n ≤ 1`), by fuelled halving — structurally
recursive so it evaluates inside the kernel. -/
def pyLog2 : ℕ → ℕ → ℕ
  | 0, _ => 0
  | fuel + 1, n => if 2 ≤ n then pyLog2 fuel (n / 2) + 1 else 0

/-- `⌊log₂ (n / d)⌋` for positive `n`, `d`, via the bit lengths of
numerator and denominator. -/
def floorLog2N (n d : ℕ) : ℤ :=
  let l0 : ℤ := (pyLog2 n n : ℤ) - (pyLog2 d d : ℤ)
  if pow2le (l0 + 1) n d then l0 + 1 else if pow2le l0 n d then l0 else l0 - 1

/-- The binary64 value of `float(Decimal(...))` for a finite decimal:
round the magnitude to 53 significant bits (the mantissa is the
round-half-even of `|q| · 2^(52-⌊log₂|q|⌋)`), keeping the sign.  This
models CPython's correctly rounded conversion throughout the normal range
of the double format (no overflow/subnormal handling, which currency
amounts never reach); it is phrased with `mkRat` and integer arithmetic so
concrete instances evaluate inside the kernel. -/
def roundFloat (q : ℚ) : ℚ :=
  if q = 0 then 0
  else
    let n := q.num.natAbs
    let d := q.den
    let k : ℤ := 52 - floorLog2N n d
    let m : ℕ := if 0 ≤ k then rheNat (n * 2 ^ k.toNat) d else rheNat n (d * 2 ^ (-k).toNat)
    let sgn : ℤ := if q.num < 0 then -1 else 1
    if 0 ≤ k then mkRat (sgn * m) (2 ^ k.toNat) else mkRat (sgn * (m * 2 ^ (-k).toNat)) 1

/-- `float` applied to a `PyDec` (non-finite decimals map to the
corresponding non-finite doubles). -/
def pyFloatDec : PyDec → PyDec
  | .num q => .num (roundFloat q)
  | d => d

/-- One row of the exported DataFrame.  `pd.to_datetime` turns a calendar
date into the midnight timestamp of the same calendar date, so the date
columns are kept as `PyDate`; the `amount` column holds the `float` of the
transaction amount. -/
structure DFRow : Type where
  activity_date : PyDate
  post_date : PyDate
  reference_number : String
  description : String
  amount : PyDec
  deriving DecidableEq, Repr

/-- `to_df`: one output row per transaction, in order. -/
def to_df (statement : Statement) : List DFRow :=
  statement.transactions.map (fun t =>
    { activity_date := t.activity_date
      post_date := t.post_date
      reference_number := t.reference_number
      description := t.description
      amount := pyFloatDec t.amount })

/-! ## The package surface (`td_parser/__init__.py` and `exceptions.py`) -/

/-- The exception class names actually defined by
`td_parser/exceptions.py`. -/
def exceptionsModuleDefs : List String :=
  ["TDParserError", "BalanceMismatchError", "DataIntegrityError"]

/-- The names `td_parser/__init__.py` imports from `.exceptions` (its
first line) and re-exports in `__all__`. -/
def initExceptionImports : List String :=
  ["BalanceMismatchError", "DataIntegrityError", "TDParserError", "UnsupportedFormatError"]

/-- `import td_parser` succeeds only if every name the package's
`__init__` imports from `.exceptions` is defined there; otherwise Python
raises `ImportError` at import time. -/
def tdParserImportSucceeds : Bool :=
  initExceptionImports.all (fun n => exceptionsModuleDefs.contains n)

/-! ## Spec-side definitions

The definitions below are not translations of the source; each follows the
words of a spec claim (or of its amended form) and is compared with the
source translation above. -/

/-- `Except.isOk` as a plain Bool. -/
def isOkE {ε α : Type} : Except ε α → Bool
  | .ok _ => true
  | .error _ => false

/-- The strip class of the amended amount-parsing claim: sign characters,
currency symbol, digit separators, whitespace, and the letters C and R in
either case. -/
def isStripCharCI (c : Char) : Bool :=
  c = '+' || c = '-' || c = '$' || c = ',' || c = 'C' || c = 'R' || c = 'c' || c = 'r' || isPyWs c

/-- Amended-claim cleaning: delete the strip class characters from the raw
token, without upper-casing first. -/
def cleanAmended (raw : String) : String := ⟨raw.data.filter (fun c => !isStripCharCI c)⟩

/-- Remove every occurrence of the two-character sequence `CR`
(case-insensitive) — the literal reading of stripping "the CR marker". -/
def removeCRMarker : List Char → List Char
  | [] => []
  | [c] => [c]
  | c1 :: c2 :: rest =>
    if (asciiUpper c1 = 'C') && (asciiUpper c2 = 'R') then removeCRMarker rest
    else c1 :: removeCRMarker (c2 :: rest)

/-- The amount parser exactly as claim C2 words it: detect a
case-insensitive CR marker, strip sign characters, the currency symbol,
digit separators, whitespace and the CR marker itself (as a two-character
sequence, not letter by letter), then parse the remainder. -/
def _parse_amount_claim (raw : String) : Except PyExc PyDec :=
  let is_credit := strContains (strUpper raw) "CR"
  let cleaned : String :=
    ⟨(removeCRMarker raw.data).filter (fun c =>
        !(c = '+' || c = '-' || c = '$' || c = ',' || isPyWs c))⟩
  match parsePyDecimal cleaned with
  | none => .error (.parserError (.dataIntegrity ("Cannot parse amount: '" ++ raw ++ "'")))
  | some value => .ok (if is_credit then value.neg else value)

/-- The label each balance field is keyed by in `label_map`. -/
def labelOf : BField → String
  | .previous_balance => "PreviousBalance"
  | .purchases => "Purchases"
  | .credits => "OtherCredits"
  | .fees => "FeesCharged"
  | .interest => "InterestCharged"
  | .new_balance => "NewBalance"
  | .available_credit => "Available"
  | .minimum_payment => "MinimumPaymentDue"

/-- The first label paired with field `f` in a label list (the dict key
order of `label_map`). -/
def lmLabel (lm : List (String × BField)) (f : BField) : Option String :=
  (lm.find? (fun p => p.2 = f)).map (·.1)

/-- The currency token a row offers for a label (`joined` passed
explicitly): present when the row's joined text contains the label and a
currency token sits right of the label coordinate; the value is the
leftmost such token's text. -/
def rowTokenForJ (row : Row) (joined : String) (label : String) : Option String :=
  if strContains joined label then
    match candidatesOf row (labelX row label) with
    | [] => none
    | c :: cs => some (minByX0 c cs).text
  else none

def rowTokenFor (row : Row) (label : String) : Option String :=
  rowTokenForJ row (rowJoined row) label

/-- The token the amended claim assigns to a label: from the first row
that both contains the label and offers a currency token right of it. -/
def selTok : List Row → String → Option String
  | [], _ => none
  | r :: rest, label =>
    match rowTokenFor r label with
    | some raw => some raw
    | none => selTok rest label

/-- The amended claim's value for one field: the selected token parsed as
a signed amount (with the leading-minus forcing). -/
def specField (rows : List Row) (label : String) : Option ℚ :=
  (selTok rows label).bind (fun raw => (amountForToken raw).toOption)

/-- The amended claim's balance-summary extractor: all eight fields must
receive a parseable value. -/
def specExtractBalance (rows : List Row) : Option BalanceSummary :=
  match specField rows "PreviousBalance", specField rows "Purchases",
        specField rows "OtherCredits", specField rows "FeesCharged",
        specField rows "InterestCharged", specField rows "NewBalance",
        specField rows "Available", specField rows "MinimumPaymentDue" with
  | some a, some b, some c, some d, some e, some f, some g, some h =>
    some ⟨a, b, c, d, e, f, g, h⟩
  | _, _, _, _, _, _, _, _ => none

/-- Claim C3's field value exactly as worded: the value comes from the
first row whose concatenated text contains the label substring — with no
fallback to later rows when that row has no currency token right of the
label. -/
def claimField (rows : List Row) (label : String) : Option ℚ :=
  match rows.find? (fun r => strContains (rowJoined r) label) with
  | none => none
  | some r =>
    match candidatesOf r (labelX r label) with
    | [] => none
    | c :: cs => (amountForToken (minByX0 c cs).text).toOption

/-- Claim C3's extractor as worded (`none` = `DataIntegrityError`). -/
def extract_balance_claim (rows : List Row) : Option BalanceSummary :=
  match claimField rows "PreviousBalance", claimField rows "Purchases",
        claimField rows "OtherCredits", claimField rows "FeesCharged",
        claimField rows "InterestCharged", claimField rows "NewBalance",
        claimField rows "Available", claimField rows "MinimumPaymentDue" with
  | some a, some b, some c, some d, some e, some f, some g, some h =>
    some ⟨a, b, c, d, e, f, g, h⟩
  | _, _, _, _, _, _, _, _ => none

/-- A transaction-section row whose processing cannot raise: it is a stop
or skip row, a row without a date token, a partial row, or a full
transaction row whose two date tokens and amount token all parse. -/
def rowSafe (year : ℤ) (billingEndMonth : ℕ) (row : Row) : Bool :=
  isStopJoined (rowJoined row) || isSkipJoined (rowJoined row) ||
  (match dateWordsOf row with
   | [] => true
   | dword :: _ =>
     match postWordsOf row, refWordsOf row, amtWordsOf row with
     | pw :: _, _ :: _, aw :: _ =>
       let txn_year := if dword.text.take 3 = "Jan" && billingEndMonth = 12 then year + 1 else year
       isOkE (_parse_date dword.text txn_year) && isOkE (_parse_date pw.text txn_year) &&
         isOkE (_parse_amount aw.text)
     | _, _, _ => true)

/-!
## Claim C1 — the balance validator
-/

/-- C1: for every `BalanceSummary`, the balance validator succeeds if and
only if `previous_balance + purchases - credits + fees + interest` equals
`new_balance` under exact decimal arithmetic (no tolerance); when they are
unequal it raises a `BalanceMismatchError` carrying both the computed and
the stated value. -/
theorem c1_validate_balance_characterization (s : BalanceSummary) :
    (_validate_balance s = .ok () ↔
      s.previous_balance + s.purchases - s.credits + s.fees + s.interest = s.new_balance) ∧
    (s.previous_balance + s.purchases - s.credits + s.fees + s.interest ≠ s.new_balance →
      _validate_balance s = .error (.parserError (.balanceMismatch
        (s.previous_balance + s.purchases - s.credits + s.fees + s.interest) s.new_balance))) := by
  unfold _validate_balance
  by_cases h : s.previous_balance + s.purchases - s.credits + s.fees + s.interest = s.new_balance <;>
    simp [h]

/-- Witness for C1 at the spec's own example: previous `-1516.49`,
purchases `365.47`, everything else `0`, stated new balance `-9999.99`
mismatches and the error carries computed and stated values. -/
theorem c1_validate_balance_witness :
    _validate_balance ⟨-151649/100, 36547/100, 0, 0, 0, -999999/100, 20000, 0⟩ =
      .error (.parserError (.balanceMismatch
        (-151649/100 + 36547/100 - 0 + 0 + 0) (-999999/100))) :=
  (c1_validate_balance_characterization
    ⟨-151649/100, 36547/100, 0, 0, 0, -999999/100, 20000, 0⟩).2 (by norm_num)

/-!
## Claim C5 — year resolution of the two date tokens
-/

/-- C5 (evidence of the code bug): the claim — and spec §4.2 — say each
date token gets `end year + 1` exactly when *that token's* month is
January in a December-ending billing period.  The code computes the year
once, from the activity token only (`act_raw[:3] == "Jan"`), and parses
the post-date token with it.  On a December 31 activity / January 1 post
row in a December-ending period the post date therefore lands a year
early: `2024-01-01`, eleven months before its own activity date, where the
claim requires `2025-01-01`. -/
theorem c5_post_date_year_evaluation :
    _extract_transactions
      [[[⟨"Transactions", 100, 0⟩],
        [⟨"Dec31", 80, 50⟩, ⟨"Jan01", 130, 50⟩, ⟨"77", 200, 50⟩, ⟨"$5.00", 520, 50⟩]]] 2024 12 =
      .ok [{ activity_date := ⟨2024, 12, 31⟩, post_date := ⟨2024, 1, 1⟩,
             reference_number := "77", description := "", amount := .num (mkRat 5 1) }] ∧
    (decide ((2024 : ℤ) = 2024 + 1)) = false := by decide

/-!
## Claim C8 — missing billing period surfaces as an untyped `KeyError`
-/

set_option maxRecDepth 4000 in
/-- C8 (counterexample): on a page whose balance summary and points
extract cleanly but which has no billing period, `parse` fails at
`header["billing"]` with a `KeyError` — an untyped Python error outside
the `ParserError` taxonomy, not the `DataIntegrityError` the claim
asserts. -/
theorem c8_keyerror_counterexample :
    parse [[[⟨"PreviousBalance", 10, 100⟩, ⟨"$1.00", 50, 100⟩],
            [⟨"Purchases", 10, 100⟩, ⟨"$2.00", 50, 100⟩],
            [⟨"OtherCredits", 10, 100⟩, ⟨"$0.50", 50, 100⟩],
            [⟨"FeesCharged", 10, 100⟩, ⟨"$0.25", 50, 100⟩],
            [⟨"InterestCharged", 10, 100⟩, ⟨"$0.25", 50, 100⟩],
            [⟨"NewBalance", 10, 100⟩, ⟨"$3.00", 50, 100⟩],
            [⟨"Available", 10, 100⟩, ⟨"$100.00", 50, 100⟩],
            [⟨"MinimumPaymentDue", 10, 100⟩, ⟨"$0.00", 50, 100⟩],
            [⟨"NewPointsBalance", 10, 100⟩, ⟨"6,050", 50, 100⟩]]] =
      .error (.keyError "billing") ∧
    PyExc.isParserError (.keyError "billing") = false := by decide

/-- C8 (amended): if the header extractor finds no billing period on page
1 while the balance summary and points extract cleanly, the parse call
fails at the later `header["billing"]` lookup with an untyped `KeyError`,
which is not part of the `ParserError` taxonomy. -/
theorem c8_billing_lookup_amended (p1 : List Row) (rest : List (List Row))
    (h : Header) (b : BalanceSummary) (n : ℤ)
    (hh : _extract_header p1 = .ok h) (hb : h.billing = none)
    (hbal : _extract_balance_summary p1 = .ok b) (hp : _extract_points p1 = .ok n) :
    parse (p1 :: rest) = .error (.keyError "billing") ∧
    PyExc.isParserError (.keyError "billing") = false := by
  refine ⟨?_, rfl⟩
  simp only [parse, hh, hbal, hp, hb]

set_option maxRecDepth 4000 in
/-- Witness for C8's amended theorem at a concrete one-page document. -/
theorem c8_billing_lookup_amended_witness :
    parse ([[⟨"PreviousBalance", 10, 100⟩, ⟨"$1.00", 50, 100⟩],
            [⟨"Purchases", 10, 100⟩, ⟨"$2.00", 50, 100⟩],
            [⟨"OtherCredits", 10, 100⟩, ⟨"$0.50", 50, 100⟩],
            [⟨"FeesCharged", 10, 100⟩, ⟨"$0.25", 50, 100⟩],
            [⟨"InterestCharged", 10, 100⟩, ⟨"$0.25", 50, 100⟩],
            [⟨"NewBalance", 10, 100⟩, ⟨"$3.00", 50, 100⟩],
            [⟨"Available", 10, 100⟩, ⟨"$100.00", 50, 100⟩],
            [⟨"MinimumPaymentDue", 10, 100⟩, ⟨"$0.00", 50, 100⟩],
            [⟨"NewPointsBalance", 10, 100⟩, ⟨"6,050", 50, 100⟩]] :: []) =
      .error (.keyError "billing") ∧
    PyExc.isParserError (.keyError "billing") = false :=
  c8_billing_lookup_amended _ []
    {} ⟨1, 2, mkRat 1 2, mkRat 1 4, mkRat 1 4, 3, 100, 0⟩ 6050
    (by decide) rfl (by decide) (by decide)

/-!
## Claim C9 — the public error surface cannot even be imported
-/

/-- C9 (evidence of the code bug): `td_parser/__init__.py` imports
`UnsupportedFormatError` from `.exceptions` and lists it in `__all__`, but
`exceptions.py` never defines that class, so `import td_parser` raises an
untyped `ImportError` — the public API does not import successfully, in
contradiction with the claim, the spec, the package's own `__all__` and
its test suite (which does `from td_parser import ...`). -/
theorem c9_import_evaluation :
    tdParserImportSucceeds = false ∧
    initExceptionImports.contains "UnsupportedFormatError" = true ∧
    exceptionsModuleDefs.contains "UnsupportedFormatError" = false := by decide

/-!
## Claim C10 — the tabular export converts amounts to binary floats
-/

/-- C10 (counterexample): `to_df` stores `float(t.amount)` in the amount
column.  For the exact decimal `0.10` the nearest binary64 value is
`3602879701896397 / 2^55`, which is not equal to `1/10` — so the exported
amount does not equal the transaction's amount as an exact decimal. -/
theorem c10_float_amount_counterexample :
    to_df { entity_name := "", primary_cardholder := "", account_suffix := "",
            billing_period_start := ⟨2024, 7, 4⟩, billing_period_end := ⟨2024, 8, 3⟩,
            balance_summary := ⟨0, 0, 0, 0, 0, 0, 0, 0⟩, current_points := 0,
            transactions := [{ activity_date := ⟨2024, 7, 7⟩, post_date := ⟨2024, 7, 8⟩,
                               reference_number := "r", description := "d",
                               amount := .num (mkRat 1 10) }] } =
      [{ activity_date := ⟨2024, 7, 7⟩, post_date := ⟨2024, 7, 8⟩, reference_number := "r",
         description := "d", amount := .num (mkRat 3602879701896397 36028797018963968) }] ∧
    (decide (PyDec.num (mkRat 3602879701896397 36028797018963968) = .num (mkRat 1 10))) = false := by
  decide

/-- C10 (amended): the export produces exactly one row per transaction
with columns activity date, post date, reference number, description and
amount, where the dates are the transactions' calendar dates and each
amount is the binary64 `float` of the transaction's decimal amount — which
need not equal the exact decimal. -/
theorem c10_to_df_amended (st : Statement) (i : ℕ) (t : Transaction)
    (h : st.transactions[i]? = some t) :
    (to_df st).length = st.transactions.length ∧
    (to_df st)[i]? = some { activity_date := t.activity_date, post_date := t.post_date,
                            reference_number := t.reference_number,
                            description := t.description,
                            amount := pyFloatDec t.amount } := by
  constructor
  · simp [to_df]
  · simp [to_df, h]

/-- Witness for C10's amended theorem on a one-transaction statement. -/
theorem c10_to_df_amended_witness :
    (to_df { entity_name := "", primary_cardholder := "", account_suffix := "",
             billing_period_start := ⟨2024, 7, 4⟩, billing_period_end := ⟨2024, 8, 3⟩,
             balance_summary := ⟨0, 0, 0, 0, 0, 0, 0, 0⟩, current_points := 0,
             transactions := [{ activity_date := ⟨2024, 7, 7⟩, post_date := ⟨2024, 7, 8⟩,
                                reference_number := "r", description := "d",
                                amount := PyDec.num (mkRat 1 10) }] }).length = 1 ∧
    (to_df { entity_name := "", primary_cardholder := "", account_suffix := "",
             billing_period_start := ⟨2024, 7, 4⟩, billing_period_end := ⟨2024, 8, 3⟩,
             balance_summary := ⟨0, 0, 0, 0, 0, 0, 0, 0⟩, current_points := 0,
             transactions := [{ activity_date := ⟨2024, 7, 7⟩, post_date := ⟨2024, 7, 8⟩,
                                reference_number := "r", description := "d",
                                amount := PyDec.num (mkRat 1 10) }] })[0]? =
      some { activity_date := ⟨2024, 7, 7⟩, post_date := ⟨2024, 7, 8⟩,
             reference_number := "r", description := "d",
             amount := pyFloatDec (PyDec.num (mkRat 1 10)) } :=
  c10_to_df_amended _ 0
    { activity_date := ⟨2024, 7, 7⟩, post_date := ⟨2024, 7, 8⟩,
      reference_number := "r", description := "d", amount := PyDec.num (mkRat 1 10) } rfl

/-!
## The transaction scan: shared lemmas for claims C4, C6 and C7
-/

theorem isOkE_true {ε α : Type} (e : Except ε α) (h : isOkE e = true) : ∃ v, e = .ok v := by
  cases e with
  | ok v => exact ⟨v, rfl⟩
  | error _ => simp [isOkE] at h

/-- A continuation row (not a stop or skip row, no activity-date token,
non-empty description band) replaces the last accumulated transaction by
its amended copy and leaves the rest of the accumulator untouched. -/
theorem txnRowsGo_continuation_step (year : ℤ) (m : ℕ) (row : Row) (rest : List Row)
    (acc : List Transaction) (last : Transaction)
    (hstop : isStopJoined (rowJoined row) = false)
    (hskip : isSkipJoined (rowJoined row) = false)
    (hdate : dateWordsOf row = [])
    (hdesc : (descWordsOf row).isEmpty = false)
    (hlast : acc.getLast? = some last) :
    txnRowsGo year m (row :: rest) true acc =
      txnRowsGo year m rest true (acc.dropLast ++ [amendedCopy last (joinSpace (descWordsOf row))]) := by
  simp [txnRowsGo, hstop, hskip, hdate, hdesc, hlast]

/-- When every row of the section is safe (stop, skip, date-free, partial,
or with parseable date and amount tokens), the scan finishes without an
error. -/
theorem txnRowsGo_all_safe_ok (year : ℤ) (m : ℕ) (rows : List Row) (acc : List Transaction)
    (h : ∀ row ∈ rows, rowSafe year m row = true) :
    ∃ l, txnRowsGo year m rows true acc = .ok l := by
  induction rows generalizing acc with
  | nil => exact ⟨acc, rfl⟩
  | cons row rest ih =>
    have hr := h row (List.mem_cons_self _ _)
    have hrest : ∀ r ∈ rest, rowSafe year m r = true := fun r hrr => h r (List.mem_cons_of_mem _ hrr)
    by_cases hstop : isStopJoined (rowJoined row) = true
    · exact ⟨acc, by simp [txnRowsGo, hstop]⟩
    · have hstop' : isStopJoined (rowJoined row) = false := by simpa using hstop
      by_cases hskip : isSkipJoined (rowJoined row) = true
      · obtain ⟨l, hl⟩ := ih acc hrest
        exact ⟨l, by simp [txnRowsGo, hstop', hskip, hl]⟩
      · have hskip' : isSkipJoined (rowJoined row) = false := by simpa using hskip
        rcases hd : dateWordsOf row with _ | ⟨dword, dtail⟩
        · by_cases hdw : (descWordsOf row).isEmpty = true
          · obtain ⟨l, hl⟩ := ih acc hrest
            exact ⟨l, by simp [txnRowsGo, hstop', hskip', hd, hdw, hl]⟩
          · have hdw' : (descWordsOf row).isEmpty = false := by simpa using hdw
            rcases hgl : acc.getLast? with _ | last
            · obtain ⟨l, hl⟩ := ih acc hrest
              exact ⟨l, by simp [txnRowsGo, hstop', hskip', hd, hdw', hgl, hl]⟩
            · obtain ⟨l, hl⟩ := ih (acc.dropLast ++ [amendedCopy last (joinSpace (descWordsOf row))]) hrest
              exact ⟨l, by simp [txnRowsGo, hstop', hskip', hd, hdw', hgl, hl]⟩
        · rcases hpw : postWordsOf row with _ | ⟨pw, pwt⟩
          · obtain ⟨l, hl⟩ := ih acc hrest
            exact ⟨l, by simp [txnRowsGo, hstop', hskip', hd, hpw, hl]⟩
          · rcases hrw : refWordsOf row with _ | ⟨rfw, rwt⟩
            · obtain ⟨l, hl⟩ := ih acc hrest
              exact ⟨l, by simp [txnRowsGo, hstop', hskip', hd, hpw, hrw, hl]⟩
            · rcases haw : amtWordsOf row with _ | ⟨aw, awt⟩
              · obtain ⟨l, hl⟩ := ih acc hrest
                exact ⟨l, by simp [txnRowsGo, hstop', hskip', hd, hpw, hrw, haw, hl]⟩
              · have hr' := hr
                simp [rowSafe, hstop', hskip', hd, hpw, hrw, haw] at hr'
                obtain ⟨⟨h1, h2⟩, h3⟩ := hr'
                obtain ⟨ad, had⟩ := isOkE_true _ h1
                obtain ⟨pd, hpd⟩ := isOkE_true _ h2
                obtain ⟨amt, hamt⟩ := isOkE_true _ h3
                obtain ⟨l, hl⟩ :=
                  ih (acc ++ [(⟨ad, pd, rfw.text, joinSpace (descWordsOf row), amt⟩ : Transaction)])
                    hrest
                exact ⟨l, by simp [txnRowsGo, hstop', hskip', hd, hpw, hrw, haw, had, hpd, hamt, hl]⟩

/-!
## Claim C4 — section boundaries of the transaction scan
-/

/-- C4 (counterexample): the claim's last clause says exhausting all pages
without a section-end row returns the accumulated list *without raising an
error*.  But a row inside the section with a date token, post/ref tokens
and an unparseable amount-column token raises `DataIntegrityError` from
`_parse_amount` — here on a document none of whose rows contains a
section-end label. -/
theorem c4_unparseable_row_counterexample :
    _extract_transactions
      [[[⟨"Transactions", 100, 0⟩],
        [⟨"Jul07", 80, 50⟩, ⟨"Jul08", 130, 50⟩, ⟨"123", 200, 50⟩, ⟨"JUNK", 520, 50⟩]]] 2024 7 =
      .error (.parserError (.dataIntegrity "Cannot parse amount: 'JUNK'")) ∧
    (([[[⟨"Transactions", 100, 0⟩],
        [⟨"Jul07", 80, 50⟩, ⟨"Jul08", 130, 50⟩, ⟨"123", 200, 50⟩, ⟨"JUNK", 520, 50⟩]]] :
        List (List Row)).flatten.all (fun r => !isStopJoined (rowJoined r))) = true := by decide

/-- C4 (amended): before the first row whose stripped joined text equals
`Transactions` the scan only toggles its flag and never creates or amends
a transaction; the first section-end row returns the accumulated
transactions at once (so no later row contributes); and when every
in-section row's date and amount tokens parse (which the claim's
error-freedom implicitly assumed), exhausting the rows returns the
accumulated list without raising an error. -/
theorem c4_scan_boundaries_amended (year : ℤ) (m : ℕ) :
    (∀ (row : Row) (rest : List Row) (acc : List Transaction),
        pyStrip (rowJoined row) ≠ "Transactions" →
        txnRowsGo year m (row :: rest) false acc = txnRowsGo year m rest false acc) ∧
    (∀ (row : Row) (rest : List Row) (acc : List Transaction),
        pyStrip (rowJoined row) = "Transactions" →
        txnRowsGo year m (row :: rest) false acc = txnRowsGo year m rest true acc) ∧
    (∀ (row : Row) (rest : List Row) (acc : List Transaction),
        isStopJoined (rowJoined row) = true →
        txnRowsGo year m (row :: rest) true acc = .ok acc) ∧
    (∀ (rows : List Row) (acc : List Transaction),
        (∀ row ∈ rows, rowSafe year m row = true) →
        ∃ l, txnRowsGo year m rows true acc = .ok l) := by
  refine ⟨?_, ?_, ?_, ?_⟩
  · intro row rest acc hne
    simp [txnRowsGo, hne]
  · intro row rest acc he
    simp [txnRowsGo, he]
  · intro row rest acc hs
    simp [txnRowsGo, hs]
  · intro rows acc hsafe
    exact txnRowsGo_all_safe_ok year m rows acc hsafe

/-- Witness for C4's amended theorem: each conjunct applied at a concrete
row list. -/
theorem c4_scan_boundaries_amended_witness :
    txnRowsGo 2024 7 [[⟨"Hello", 10, 10⟩]] false [] = txnRowsGo 2024 7 [] false [] ∧
    txnRowsGo 2024 7 [[⟨"Transactions", 10, 10⟩]] false [] = txnRowsGo 2024 7 [] true [] ∧
    txnRowsGo 2024 7 [[⟨"TotalFees", 10, 10⟩]] true [] = .ok [] ∧
    ∃ l, txnRowsGo 2024 7
      [[⟨"Jul07", 80, 50⟩, ⟨"Jul08", 130, 50⟩, ⟨"1", 200, 50⟩, ⟨"$5.00", 520, 50⟩]] true [] = .ok l :=
  ⟨(c4_scan_boundaries_amended 2024 7).1 _ [] [] (by decide),
   (c4_scan_boundaries_amended 2024 7).2.1 _ [] [] (by decide),
   (c4_scan_boundaries_amended 2024 7).2.2.1 _ [] [] (by decide),
   (c4_scan_boundaries_amended 2024 7).2.2.2 _ [] (by decide)⟩

/-!
## Claim C6 — continuation-line stitching
-/

/-- C6 (counterexample): a row carrying a `CardNumberEnding` token in the
description band, with no activity-date token and one transaction already
accumulated, satisfies every condition of the claim — yet the code skips
it (the card-number guard fires first) and the last transaction's
description stays `"STORE"` instead of gaining the appended text. -/
theorem c6_continuation_skip_counterexample :
    _extract_transactions
      [[[⟨"Transactions", 100, 0⟩],
        [⟨"Jul07", 80, 50⟩, ⟨"Jul08", 130, 50⟩, ⟨"39053938", 200, 50⟩,
         ⟨"STORE", 300, 50⟩, ⟨"$32.53", 520, 50⟩],
        [⟨"CardNumberEnding1234", 300, 65⟩]]] 2024 7 =
      .ok [{ activity_date := ⟨2024, 7, 7⟩, post_date := ⟨2024, 7, 8⟩,
             reference_number := "39053938", description := "STORE",
             amount := .num (mkRat 3253 100) }] ∧
    dateWordsOf [(⟨"CardNumberEnding1234", 300, 65⟩ : Word)] = [] ∧
    (descWordsOf [(⟨"CardNumberEnding1234", 300, 65⟩ : Word)]).isEmpty = false ∧
    (decide ("STORE" = "STORE" ++ " " ++ "CardNumberEnding1234")) = false := by decide

/-- C6 (amended): when a row inside the transaction section is neither a
section-end row nor a column-header/card-number row, has no activity-date
column token matching the date pattern but has description-band tokens,
and at least one transaction has been accumulated, the scan replaces the
last accumulated transaction with a copy whose description is the old
description, a space, and the space-joined description-band tokens; the
activity date, post date, reference number and amount are unchanged and
the count and order of all other transactions are unchanged. -/
theorem c6_continuation_amend_amended (year : ℤ) (m : ℕ) (row : Row) (rest : List Row)
    (pre : List Transaction) (t : Transaction)
    (hstop : isStopJoined (rowJoined row) = false)
    (hskip : isSkipJoined (rowJoined row) = false)
    (hdate : dateWordsOf row = [])
    (hdesc : (descWordsOf row).isEmpty = false) :
    txnRowsGo year m (row :: rest) true (pre ++ [t]) =
      txnRowsGo year m rest true
        (pre ++ [({ activity_date := t.activity_date, post_date := t.post_date,
                    reference_number := t.reference_number,
                    description := t.description ++ " " ++ joinSpace (descWordsOf row),
                    amount := t.amount } : Transaction)]) ∧
    (pre ++ [({ activity_date := t.activity_date, post_date := t.post_date,
                reference_number := t.reference_number,
                description := t.description ++ " " ++ joinSpace (descWordsOf row),
                amount := t.amount } : Transaction)]).length = (pre ++ [t]).length := by
  have h := txnRowsGo_continuation_step year m row rest (pre ++ [t]) t hstop hskip hdate hdesc
    (by simp)
  constructor
  · simpa [amendedCopy] using h
  · simp

/-- Witness for C6's amended theorem at a concrete continuation row. -/
theorem c6_continuation_amend_amended_witness :
    txnRowsGo 2024 7 [[⟨"EXTRA", 300, 60⟩]] true
        ([] ++ [(⟨⟨2024, 7, 7⟩, ⟨2024, 7, 8⟩, "39053938", "STORE", PyDec.num (mkRat 3253 100)⟩ : Transaction)]) =
      txnRowsGo 2024 7 [] true
        ([] ++ [({ activity_date := (⟨2024, 7, 7⟩ : PyDate), post_date := (⟨2024, 7, 8⟩ : PyDate),
                   reference_number := "39053938",
                   description := "STORE" ++ " " ++ joinSpace (descWordsOf [(⟨"EXTRA", 300, 60⟩ : Word)]),
                   amount := PyDec.num (mkRat 3253 100) } : Transaction)]) ∧
    ([] ++ [({ activity_date := (⟨2024, 7, 7⟩ : PyDate), post_date := (⟨2024, 7, 8⟩ : PyDate),
               reference_number := "39053938",
               description := "STORE" ++ " " ++ joinSpace (descWordsOf [(⟨"EXTRA", 300, 60⟩ : Word)]),
               amount := PyDec.num (mkRat 3253 100) } : Transaction)]).length =
      ([] ++ [(⟨⟨2024, 7, 7⟩, ⟨2024, 7, 8⟩, "39053938", "STORE", PyDec.num (mkRat 3253 100)⟩ : Transaction)]).length :=
  c6_continuation_amend_amended 2024 7 [⟨"EXTRA", 300, 60⟩] [] []
    ⟨⟨2024, 7, 7⟩, ⟨2024, 7, 8⟩, "39053938", "STORE", PyDec.num (mkRat 3253 100)⟩
    (by decide) (by decide) (by decide) (by decide)

/-!
## Claim C7 — how often one transaction is amended
-/

/-- C7 (counterexample): a parse in which the same transaction is amended
by *two* continuation rows.  The two description-only rows `A` and `B`
each amend the single accumulated transaction, whose final description
`"STORE A B"` carries both appended texts — contradicting the claim that
no transaction's description is ever amended by more than one continuation
row. -/
theorem c7_double_amend_counterexample :
    _extract_transactions
      [[[⟨"Transactions", 100, 0⟩],
        [⟨"Jul07", 80, 50⟩, ⟨"Jul08", 130, 50⟩, ⟨"39053938", 200, 50⟩,
         ⟨"STORE", 300, 50⟩, ⟨"$32.53", 520, 50⟩],
        [⟨"A", 300, 60⟩],
        [⟨"B", 300, 70⟩]]] 2024 7 =
      .ok [{ activity_date := ⟨2024, 7, 7⟩, post_date := ⟨2024, 7, 8⟩,
             reference_number := "39053938", description := "STORE A B",
             amount := .num (mkRat 3253 100) }] ∧
    (decide ("STORE A B" = "STORE A")) = false := by decide

/-- C7 (amended): a transaction is never mutated — every amendment
replaces the last accumulated transaction with a fresh copy — and it is
amended once per following continuation row, so a transaction followed by
two continuation rows is amended twice, the two appends composing in row
order while the rest of the accumulator is untouched. -/
theorem c7_amend_per_continuation_row (year : ℤ) (m : ℕ) (r1 r2 : Row) (rest : List Row)
    (pre : List Transaction) (t : Transaction)
    (h1stop : isStopJoined (rowJoined r1) = false) (h1skip : isSkipJoined (rowJoined r1) = false)
    (h1date : dateWordsOf r1 = []) (h1desc : (descWordsOf r1).isEmpty = false)
    (h2stop : isStopJoined (rowJoined r2) = false) (h2skip : isSkipJoined (rowJoined r2) = false)
    (h2date : dateWordsOf r2 = []) (h2desc : (descWordsOf r2).isEmpty = false) :
    txnRowsGo year m (r1 :: r2 :: rest) true (pre ++ [t]) =
      txnRowsGo year m rest true
        (pre ++ [amendedCopy (amendedCopy t (joinSpace (descWordsOf r1)))
                   (joinSpace (descWordsOf r2))]) := by
  have h1 := txnRowsGo_continuation_step year m r1 (r2 :: rest) (pre ++ [t]) t
    h1stop h1skip h1date h1desc (by simp)
  have h2 := txnRowsGo_continuation_step year m r2 rest
    (pre ++ [amendedCopy t (joinSpace (descWordsOf r1))])
    (amendedCopy t (joinSpace (descWordsOf r1))) h2stop h2skip h2date h2desc (by simp)
  rw [h1, List.dropLast_concat, h2, List.dropLast_concat]

/-- Witness for C7's amended theorem at two concrete continuation rows. -/
theorem c7_amend_per_continuation_row_witness :
    txnRowsGo 2024 7 [[⟨"A", 300, 60⟩], [⟨"B", 300, 70⟩]] true
        ([] ++ [(⟨⟨2024, 7, 7⟩, ⟨2024, 7, 8⟩, "39053938", "STORE", PyDec.num (mkRat 3253 100)⟩ : Transaction)]) =
      txnRowsGo 2024 7 [] true
        ([] ++ [amendedCopy (amendedCopy
                  ⟨⟨2024, 7, 7⟩, ⟨2024, 7, 8⟩, "39053938", "STORE", PyDec.num (mkRat 3253 100)⟩
                  (joinSpace (descWordsOf [(⟨"A", 300, 60⟩ : Word)])))
                 (joinSpace (descWordsOf [(⟨"B", 300, 70⟩ : Word)]))]) :=
  c7_amend_per_continuation_row 2024 7 [⟨"A", 300, 60⟩] [⟨"B", 300, 70⟩] [] []
    ⟨⟨2024, 7, 7⟩, ⟨2024, 7, 8⟩, "39053938", "STORE", PyDec.num (mkRat 3253 100)⟩
    (by decide) (by decide) (by decide) (by decide)
    (by decide) (by decide) (by decide) (by decide)

/-!
## Character-case commutation lemmas (for claim C2)

`_parse_amount` upper-cases the token before deleting its strip class,
while the amended claim deletes the both-case strip class from the
original token.  These lemmas show the two pipelines parse identically.
-/

theorem toNat_ofNat_valid (m : ℕ) (h : m < 55296) : (Char.ofNat m).toNat = m := by
  have hv : m.isValidChar := Or.inl h
  simp [Char.ofNat, hv, Char.ofNatAux, Char.toNat, UInt32.toNat, BitVec.toNat_ofNatLt]

theorem charEq_toNat (a b : Char) : (a = b) = (a.toNat = b.toNat) :=
  propext ⟨fun h => by rw [h], fun h => by
    have h2 := congrArg Char.ofNat h
    rwa [Char.ofNat_toNat, Char.ofNat_toNat] at h2⟩

theorem charLe_toNat (a b : Char) : (a ≤ b) = (a.toNat ≤ b.toNat) := rfl

theorem isPyWs_asciiUpper (c : Char) : isPyWs (asciiUpper c) = isPyWs c := by
  unfold asciiUpper
  by_cases h : 97 ≤ c.toNat ∧ c.toNat ≤ 122
  · rw [if_pos h]
    have h32 : (Char.ofNat (c.toNat - 32)).toNat = c.toNat - 32 := toNat_ofNat_valid _ (by omega)
    rw [Bool.eq_iff_iff]
    simp only [isPyWs, charEq_toNat, h32, Bool.or_eq_true, decide_eq_true_eq,
      show (' ' : Char).toNat = 32 from rfl, show ('\t' : Char).toNat = 9 from rfl,
      show ('\n' : Char).toNat = 10 from rfl, show ('\x0d' : Char).toNat = 13 from rfl,
      show ('\x0b' : Char).toNat = 11 from rfl, show ('\x0c' : Char).toNat = 12 from rfl]
    omega
  · rw [if_neg h]

theorem isDigit_eq (c : Char) : c.isDigit = (decide (48 ≤ c.toNat) && decide (c.toNat ≤ 57)) := by
  rfl

theorem isDigit_asciiUpper (c : Char) : (asciiUpper c).isDigit = c.isDigit := by
  unfold asciiUpper
  by_cases h : 97 ≤ c.toNat ∧ c.toNat ≤ 122
  · rw [if_pos h]
    have h32 : (Char.ofNat (c.toNat - 32)).toNat = c.toNat - 32 := toNat_ofNat_valid _ (by omega)
    rw [Bool.eq_iff_iff]
    simp only [isDigit_eq, h32, Bool.and_eq_true, decide_eq_true_eq]
    omega
  · rw [if_neg h]

theorem asciiUpper_eq_underscore (c : Char) : (asciiUpper c = '_') = (c = '_') := by
  unfold asciiUpper
  by_cases h : 97 ≤ c.toNat ∧ c.toNat ≤ 122
  · rw [if_pos h]
    have h32 : (Char.ofNat (c.toNat - 32)).toNat = c.toNat - 32 := toNat_ofNat_valid _ (by omega)
    rw [charEq_toNat, charEq_toNat, h32]
    simp only [show ('_' : Char).toNat = 95 from rfl]
    apply propext
    constructor <;> (intro hh; omega)
  · rw [if_neg h]

theorem isStripChar_asciiUpper (c : Char) : isStripChar (asciiUpper c) = isStripCharCI c := by
  unfold asciiUpper
  by_cases h : 97 ≤ c.toNat ∧ c.toNat ≤ 122
  · rw [if_pos h]
    have h32 : (Char.ofNat (c.toNat - 32)).toNat = c.toNat - 32 := toNat_ofNat_valid _ (by omega)
    rw [Bool.eq_iff_iff]
    simp only [isStripChar, isStripCharCI, isPyWs, charEq_toNat, h32, Bool.or_eq_true,
      decide_eq_true_eq,
      show (' ' : Char).toNat = 32 from rfl, show ('\t' : Char).toNat = 9 from rfl,
      show ('\n' : Char).toNat = 10 from rfl, show ('\x0d' : Char).toNat = 13 from rfl,
      show ('\x0b' : Char).toNat = 11 from rfl, show ('\x0c' : Char).toNat = 12 from rfl,
      show ('+' : Char).toNat = 43 from rfl, show ('-' : Char).toNat = 45 from rfl,
      show ('$' : Char).toNat = 36 from rfl, show (',' : Char).toNat = 44 from rfl,
      show ('C' : Char).toNat = 67 from rfl, show ('R' : Char).toNat = 82 from rfl,
      show ('c' : Char).toNat = 99 from rfl, show ('r' : Char).toNat = 114 from rfl]
    omega
  · rw [if_neg h]
    rw [Bool.eq_iff_iff]
    simp only [isStripChar, isStripCharCI, isPyWs, charEq_toNat, Bool.or_eq_true,
      decide_eq_true_eq,
      show (' ' : Char).toNat = 32 from rfl, show ('\t' : Char).toNat = 9 from rfl,
      show ('\n' : Char).toNat = 10 from rfl, show ('\x0d' : Char).toNat = 13 from rfl,
      show ('\x0b' : Char).toNat = 11 from rfl, show ('\x0c' : Char).toNat = 12 from rfl,
      show ('+' : Char).toNat = 43 from rfl, show ('-' : Char).toNat = 45 from rfl,
      show ('$' : Char).toNat = 36 from rfl, show (',' : Char).toNat = 44 from rfl,
      show ('C' : Char).toNat = 67 from rfl, show ('R' : Char).toNat = 82 from rfl,
      show ('c' : Char).toNat = 99 from rfl, show ('r' : Char).toNat = 114 from rfl]
    omega

theorem asciiLower_asciiUpper (c : Char) : asciiLower (asciiUpper c) = asciiLower c := by
  unfold asciiUpper
  by_cases h : 97 ≤ c.toNat ∧ c.toNat ≤ 122
  · rw [if_pos h]
    have h32 : (Char.ofNat (c.toNat - 32)).toNat = c.toNat - 32 := toNat_ofNat_valid _ (by omega)
    unfold asciiLower
    rw [if_pos (by rw [h32]; omega), if_neg (by omega), h32]
    rw [show c.toNat - 32 + 32 = c.toNat from by omega, Char.ofNat_toNat]
  · rw [if_neg h]


theorem filter_map_comm (f : Char → Char) (p : Char → Bool) (l : List Char) :
    (l.map f).filter p = (l.filter (fun c => p (f c))).map f := by
  induction l with
  | nil => rfl
  | cons c t ih => by_cases h : p (f c) = true <;> simp [h, ih]

theorem dropWhile_map_comm (f : Char → Char) (p : Char → Bool) (l : List Char) :
    (l.map f).dropWhile p = (l.dropWhile (fun c => p (f c))).map f := by
  induction l with
  | nil => rfl
  | cons c t ih => by_cases h : p (f c) = true <;> simp [List.dropWhile, h, ih]

theorem pyStripL_map_upper (l : List Char) :
    pyStripL (l.map asciiUpper) = (pyStripL l).map asciiUpper := by
  have hf : (fun c => isPyWs (asciiUpper c)) = isPyWs := funext isPyWs_asciiUpper
  unfold pyStripL
  rw [dropWhile_map_comm, hf, ← List.map_reverse, dropWhile_map_comm, hf, ← List.map_reverse]

theorem usOkAux_cons (prev : Option Char) (c : Char) (rest : List Char) :
    usOkAux prev (c :: rest) =
      if c = '_' then
        ((match prev with
          | some p => p.isDigit
          | none => false) &&
         (match rest with
          | r :: _ => r.isDigit
          | [] => false) && usOkAux (some c) rest)
      else usOkAux (some c) rest := rfl

theorem usOkAux_map_upper (l : List Char) (p : Option Char) :
    usOkAux (p.map asciiUpper) (l.map asciiUpper) = usOkAux p l := by
  induction l generalizing p with
  | nil => rfl
  | cons c rest ih =>
    rw [List.map_cons, usOkAux_cons, usOkAux_cons]
    have hdig : (match p.map asciiUpper with
        | some q => q.isDigit
        | none => false) = (match p with
        | some q => q.isDigit
        | none => false) := by
      cases p with
      | none => rfl
      | some q => simp [isDigit_asciiUpper]
    have hhead : (match rest.map asciiUpper with
        | r :: _ => r.isDigit
        | [] => false) = (match rest with
        | r :: _ => r.isDigit
        | [] => false) := by
      cases rest with
      | nil => rfl
      | cons r t => simp [isDigit_asciiUpper]
    have ihc : usOkAux (some (asciiUpper c)) (List.map asciiUpper rest) = usOkAux (some c) rest :=
      ih (some c)
    by_cases hc : c = '_'
    · rw [if_pos (by rw [asciiUpper_eq_underscore]; exact hc), if_pos hc, hdig, hhead, ihc]
      cases rest <;> rfl
    · rw [if_neg (by rw [asciiUpper_eq_underscore]; exact hc), if_neg hc, ihc]

theorem usOk_map_upper (l : List Char) : usOk (l.map asciiUpper) = usOk l :=
  usOkAux_map_upper l none

theorem map_lower_upper (l : List Char) :
    (l.map asciiUpper).map asciiLower = l.map asciiLower := by
  rw [List.map_map]
  exact List.map_congr_left (fun c _ => asciiLower_asciiUpper c)


theorem parsePyDecL_map_upper (l : List Char) :
    parsePyDecL (l.map asciiUpper) = parsePyDecL l := by
  simp only [parsePyDecL, pyStripL_map_upper, usOk_map_upper]
  by_cases h : usOk (pyStripL l) = true
  · rw [if_pos h, if_pos h]
    have hfilter : (List.map asciiUpper (pyStripL l)).filter (fun c => c ≠ '_') =
        ((pyStripL l).filter (fun c => c ≠ '_')).map asciiUpper := by
      rw [filter_map_comm]
      congr 1
      apply List.filter_congr
      intro c _
      simp [asciiUpper_eq_underscore]
    rw [hfilter, map_lower_upper]
  · rw [if_neg h, if_neg h]

theorem cleanedChars_eq (raw : String) :
    (strUpper raw).data.filter (fun c => !isStripChar c) =
      ((cleanAmended raw).data).map asciiUpper := by
  show (raw.data.map asciiUpper).filter (fun c => !isStripChar c) =
    (raw.data.filter (fun c => !isStripCharCI c)).map asciiUpper
  rw [filter_map_comm]
  congr 1
  apply List.filter_congr
  intro c _
  simp [isStripChar_asciiUpper]

theorem parse_cleaned_eq (raw : String) :
    parsePyDecimal ⟨(strUpper raw).data.filter (fun c => !isStripChar c)⟩ =
      parsePyDecimal (cleanAmended raw) := by
  show parsePyDecL ((strUpper raw).data.filter (fun c => !isStripChar c)) =
    parsePyDecL (cleanAmended raw).data
  rw [cleanedChars_eq, parsePyDecL_map_upper]

/-!
## Claim C2 — the amount parser
-/

/-- C2 (counterexample): the claim says the parser strips "the CR marker"
(the two-character sequence) and fails when the remainder is not a valid
decimal numeral.  On `"$1.23C"` the claim-literal parser
(`_parse_amount_claim`) leaves the remainder `1.23C` and must raise
`DataIntegrityError`; the code deletes the letters C and R individually,
leaves `1.23`, and succeeds. -/
theorem c2_cr_marker_counterexample :
    _parse_amount "$1.23C" = .ok (.num (mkRat 123 100)) ∧
    _parse_amount_claim "$1.23C" =
      .error (.parserError (.dataIntegrity "Cannot parse amount: '$1.23C'")) := by decide

/-- C2 (amended): the parser detects a case-insensitive CR substring and
strips, character by character, sign characters, the currency symbol,
digit separators, whitespace and the letters C and R in either case (not
just the CR marker as a unit); if the remainder is accepted by the decimal
grammar it returns its exact value, negated exactly when CR was present,
and raises `DataIntegrityError` otherwise.  In particular `"$12.34CR"`
parses to `-12.34`, `"+$12.34"` to `12.34`, `"$0.00"` to `0`, and
`"not-a-number"` raises `DataIntegrityError`. -/
theorem c2_amount_parser_amended :
    (∀ raw : String,
      ((∃ msg, _parse_amount raw = .error (.parserError (.dataIntegrity msg))) ↔
        parsePyDecimal (cleanAmended raw) = none) ∧
      (∀ q : ℚ, parsePyDecimal (cleanAmended raw) = some (.num q) →
        _parse_amount raw = .ok (.num (if strContains (strUpper raw) "CR" then -q else q)))) ∧
    _parse_amount "$12.34CR" = .ok (.num (mkRat (-1234) 100)) ∧
    _parse_amount "+$12.34" = .ok (.num (mkRat 1234 100)) ∧
    _parse_amount "$0.00" = .ok (.num 0) ∧
    _parse_amount "not-a-number" =
      .error (.parserError (.dataIntegrity "Cannot parse amount: 'not-a-number'")) := by
  refine ⟨?_, by decide, by decide, by decide, by decide⟩
  intro raw
  have hkey := parse_cleaned_eq raw
  rcases hp : parsePyDecimal (cleanAmended raw) with _ | v
  · refine ⟨⟨fun _ => rfl, fun _ => ?_⟩, fun q hq => ?_⟩
    · exact ⟨"Cannot parse amount: '" ++ raw ++ "'", by simp only [_parse_amount, hkey, hp]⟩
    · exact absurd hq (by simp)
  · refine ⟨⟨fun hex => ?_, fun hn => ?_⟩, fun q hq => ?_⟩
    · obtain ⟨msg, hmsg⟩ := hex
      simp only [_parse_amount, hkey, hp] at hmsg
      simp at hmsg
    · exact absurd hn (by simp)
    · injection hq with hv
      subst hv
      simp only [_parse_amount, hkey, hp]
      cases hcr : strContains (strUpper raw) "CR" <;> simp [hcr, PyDec.neg]

/-- Witness for C2's amended theorem: the general clause applied to the
concrete credit token `"$7.10CR"`. -/
theorem c2_amount_parser_amended_witness :
    _parse_amount "$7.10CR" =
      .ok (.num (if strContains (strUpper "$7.10CR") "CR" then -(mkRat 710 100) else mkRat 710 100)) :=
  (c2_amount_parser_amended.1 "$7.10CR").2 (mkRat 710 100) (by decide)

end TD

namespace TD

theorem setVal_same (v : Vals) (f : BField) (q : ℚ) : setVal v f q f = some q := by
  simp [setVal]

theorem setVal_other (v : Vals) (f g : BField) (q : ℚ) (h : g ≠ f) : setVal v f q g = v g := by
  simp [setVal, h]

theorem amountForToken_error_shape (raw : String) (e : PyExc)
    (h : amountForToken raw = .error e) : ∃ m, e = .parserError (.dataIntegrity m) := by
  simp only [amountForToken, _parse_amount] at h
  rcases hp : parsePyDecimal ⟨(strUpper raw).data.filter (fun c => !isStripChar c)⟩ with _ | v
  · rw [hp] at h
    simp at h
    exact ⟨"Cannot parse amount: '" ++ raw ++ "'", h.symm⟩
  · rw [hp] at h
    simp at h

theorem amountForToken_toOption_none (raw : String)
    (h : (amountForToken raw).toOption = none) :
    ∃ m, amountForToken raw = .error (.parserError (.dataIntegrity m)) := by
  rcases ha : amountForToken raw with e | q
  · obtain ⟨m, hm⟩ := amountForToken_error_shape raw e ha
    subst hm
    exact ⟨m, rfl⟩
  · rw [ha] at h
    simp [Except.toOption] at h

theorem amountForToken_toOption_some (raw : String) (q : ℚ)
    (h : (amountForToken raw).toOption = some q) : amountForToken raw = .ok q := by
  rcases ha : amountForToken raw with e | q'
  · rw [ha] at h; simp [Except.toOption] at h
  · rw [ha] at h; simp [Except.toOption] at h; rw [h]

/-- One-entry characterization of the inner loop body. -/
theorem processLabel_char (row : Row) (joined : String) (v : Vals) (p : String × BField) :
    processLabel row joined v p =
      match v p.2 with
      | some _ => .ok v
      | none =>
        match rowTokenForJ row joined p.1 with
        | none => .ok v
        | some raw =>
          match amountForToken raw with
          | .error e => .error e
          | .ok q => .ok (setVal v p.2 q) := by
  unfold processLabel rowTokenForJ
  rcases hv : v p.2 with _ | q
  · simp only [hv, Option.isSome_none, Bool.false_eq_true, if_false]
    by_cases hc : strContains joined p.1 = true
    · simp only [hc, Bool.not_true, Bool.false_eq_true, if_false]
      rcases hcand : candidatesOf row (labelX row p.1) with _ | ⟨c, cs⟩
      · simp [hc]
      · simp [hc]
    · simp [hc]
  · simp [hv]

end TD

namespace TD

theorem lmLabel_cons (p : String × BField) (lm : List (String × BField)) (f : BField) :
    lmLabel (p :: lm) f = if p.2 = f then some p.1 else lmLabel lm f := by
  by_cases h : p.2 = f <;> simp [lmLabel, List.find?_cons, h]

theorem lmLabel_eq_none_of_not_mem {lm : List (String × BField)} {f : BField}
    (h : f ∉ lm.map Prod.snd) : lmLabel lm f = none := by
  unfold lmLabel
  rw [List.find?_eq_none.mpr]
  · rfl
  · intro x hx
    simp only [decide_eq_true_eq]
    intro he
    exact h (List.mem_map.mpr ⟨x, hx, he⟩)

theorem foldLabels_ok_bind {α : Type} (v : Vals) (k : Vals → Except PyExc α) :
    ((.ok v : Except PyExc Vals) >>= k) = k v := rfl

theorem foldLabels_error_bind {α : Type} (e : PyExc) (k : Vals → Except PyExc α) :
    ((.error e : Except PyExc Vals) >>= k) = .error e := rfl

end TD


namespace TD

theorem lmLabel_some_ne {lm : List (String × BField)} {f : BField} {label : String}
    (hnotin : f ∉ lm.map Prod.snd) (h : lmLabel lm f = some label) : False := by
  rw [lmLabel_eq_none_of_not_mem hnotin] at h
  cases h

/-- Characterization of the inner label fold over an arbitrary label list
with distinct fields: either every attempted assignment parses and the
resulting state is described per field, or the fold stops at an
unparseable selected token with a DataIntegrityError. -/
theorem foldLabels_char (row : Row) (joined : String) :
    ∀ (lm : List (String × BField)) (v : Vals), (lm.map Prod.snd).Nodup →
    (∃ v', List.foldlM (processLabel row joined) v lm = .ok v' ∧
       (∀ f, v' f =
         match lmLabel lm f with
         | none => v f
         | some label =>
           match v f with
           | some q => some q
           | none => (rowTokenForJ row joined label).bind (fun raw => (amountForToken raw).toOption)) ∧
       (∀ f label raw, lmLabel lm f = some label → v f = none →
          rowTokenForJ row joined label = some raw → (amountForToken raw).toOption ≠ none))
    ∨ (∃ m f label raw,
        List.foldlM (processLabel row joined) v lm = .error (.parserError (.dataIntegrity m)) ∧
        lmLabel lm f = some label ∧ v f = none ∧ rowTokenForJ row joined label = some raw ∧
        (amountForToken raw).toOption = none) := by
  intro lm
  induction lm with
  | nil =>
    intro v _
    left
    exact ⟨v, rfl, fun f => by simp [lmLabel], fun f label raw h => by simp [lmLabel] at h⟩
  | cons p lm ih =>
    intro v hnd
    have hnd' : (lm.map Prod.snd).Nodup := (List.nodup_cons.mp (by simpa using hnd)).2
    have hnotin : p.2 ∉ lm.map Prod.snd := (List.nodup_cons.mp (by simpa using hnd)).1
    rw [List.foldlM_cons, processLabel_char]
    rcases hv : v p.2 with _ | q0
    · rcases hrt : rowTokenForJ row joined p.1 with _ | raw
      · rw [foldLabels_ok_bind]
        rcases ih v hnd' with ⟨v', hf, hchar, hnp⟩ | ⟨m, f, label, raw, hf, hlm, hvf, hrtf, hbad⟩
        · left
          refine ⟨v', hf, fun f => ?_, fun f label raw hlmc hvf hrtf => ?_⟩
          · rw [lmLabel_cons]
            by_cases hpf : p.2 = f
            · subst hpf
              have hnone : lmLabel lm p.2 = none := lmLabel_eq_none_of_not_mem hnotin
              have hc := hchar p.2
              rw [hnone] at hc
              simp [hc, hv, hrt]
            · rw [if_neg hpf]
              exact hchar f
          · rw [lmLabel_cons] at hlmc
            by_cases hpf : p.2 = f
            · subst hpf
              rw [if_pos rfl] at hlmc
              injection hlmc with he
              subst he
              rw [hrt] at hrtf
              cases hrtf
            · rw [if_neg hpf] at hlmc
              exact hnp f label raw hlmc hvf hrtf
        · right
          have hfne : f ≠ p.2 := by
            intro he
            subst he
            exact lmLabel_some_ne hnotin hlm
          refine ⟨m, f, label, raw, hf, ?_, hvf, hrtf, hbad⟩
          rw [lmLabel_cons, if_neg (fun hh => hfne hh.symm)]
          exact hlm
      · rcases hb : amountForToken raw with e | q
        · right
          obtain ⟨m, hm⟩ := amountForToken_error_shape raw e hb
          subst hm
          refine ⟨m, p.2, p.1, raw, ?_, ?_, hv, hrt, by simp [hb, Except.toOption]⟩
          · simp [hb, foldLabels_error_bind]
          · rw [lmLabel_cons, if_pos rfl]
        · simp only [hb, foldLabels_ok_bind]
          rcases ih (setVal v p.2 q) hnd' with
            ⟨v', hf, hchar, hnp⟩ | ⟨m, f, label, raw', hf, hlm, hvf, hrtf, hbad⟩
          · left
            refine ⟨v', hf, fun f => ?_, fun f label raw' hlmc hvf2 hrtf => ?_⟩
            · rw [lmLabel_cons]
              by_cases hpf : p.2 = f
              · subst hpf
                have hnone : lmLabel lm p.2 = none := lmLabel_eq_none_of_not_mem hnotin
                have hc := hchar p.2
                rw [hnone] at hc
                simp [setVal_same] at hc
                simp [hc, hv, hrt, hb, Except.toOption]
              · rw [if_neg hpf]
                have hc := hchar f
                rw [setVal_other v p.2 f q (fun hh => hpf hh.symm)] at hc
                exact hc
            · rw [lmLabel_cons] at hlmc
              by_cases hpf : p.2 = f
              · subst hpf
                rw [if_pos rfl] at hlmc
                injection hlmc with he
                subst he
                rw [hrt] at hrtf
                injection hrtf with he2
                subst he2
                simp [hb, Except.toOption]
              · rw [if_neg hpf] at hlmc
                refine hnp f label raw' hlmc ?_ hrtf
                rw [setVal_other v p.2 f q (fun hh => hpf hh.symm)]
                exact hvf2
          · right
            have hpf : f ≠ p.2 := by
              intro he
              subst he
              rw [setVal_same] at hvf
              cases hvf
            refine ⟨m, f, label, raw', hf, ?_, ?_, hrtf, hbad⟩
            · rw [lmLabel_cons, if_neg (fun hh => hpf hh.symm)]
              exact hlm
            · rw [setVal_other v p.2 f q hpf] at hvf
              exact hvf
    · rw [foldLabels_ok_bind]
      rcases ih v hnd' with ⟨v', hf, hchar, hnp⟩ | ⟨m, f, label, raw, hf, hlm, hvf, hrtf, hbad⟩
      · left
        refine ⟨v', hf, fun f => ?_, fun f label raw hlmc hvf hrtf => ?_⟩
        · rw [lmLabel_cons]
          by_cases hpf : p.2 = f
          · subst hpf
            have hnone : lmLabel lm p.2 = none := lmLabel_eq_none_of_not_mem hnotin
            have hc := hchar p.2
            rw [hnone] at hc
            simp [hc, hv]
          · rw [if_neg hpf]
            exact hchar f
        · rw [lmLabel_cons] at hlmc
          by_cases hpf : p.2 = f
          · subst hpf
            rw [hv] at hvf
            cases hvf
          · rw [if_neg hpf] at hlmc
            exact hnp f label raw hlmc hvf hrtf
      · right
        refine ⟨m, f, label, raw, hf, ?_, hvf, hrtf, hbad⟩
        rw [lmLabel_cons]
        by_cases hpf : p.2 = f
        · subst hpf
          rw [hv] at hvf
          cases hvf
        · rw [if_neg hpf]
          exact hlm

end TD

namespace TD

theorem lmLabel_labelMap (f : BField) : lmLabel labelMap f = some (labelOf f) := by
  cases f <;> rfl

theorem labelMap_fields_nodup : (labelMap.map Prod.snd).Nodup := by decide

/-- Characterization of the outer `for row in rows` fold: either it
succeeds and every field holds the parsed value of the first token any
row offers for its label, or it stops with a `DataIntegrityError` at a
field whose first offered token does not parse. -/
theorem foldRows_char :
    ∀ (rows : List Row) (v : Vals),
    (∃ v', rows.foldlM processRow v = .ok v' ∧
       (∀ f, v' f =
         match v f with
         | some q => some q
         | none => (selTok rows (labelOf f)).bind (fun raw => (amountForToken raw).toOption)) ∧
       (∀ f raw, v f = none → selTok rows (labelOf f) = some raw →
          (amountForToken raw).toOption ≠ none))
    ∨ (∃ m f raw, rows.foldlM processRow v = .error (.parserError (.dataIntegrity m)) ∧
        v f = none ∧ selTok rows (labelOf f) = some raw ∧
        (amountForToken raw).toOption = none) := by
  intro rows
  induction rows with
  | nil =>
    intro v
    left
    refine ⟨v, rfl, fun f => ?_, fun f raw hv hsel => by simp [selTok] at hsel⟩
    cases hv : v f <;> simp [selTok]
  | cons r rest ih =>
    intro v
    rw [List.foldlM_cons]
    have hrow := foldLabels_char r (rowJoined r) labelMap v labelMap_fields_nodup
    rcases hrow with ⟨v₁, h1, hchar1, hnp1⟩ | ⟨m, f, label, raw, h1, hlm, hvf, hrt, hbad⟩
    · have hpr : processRow v r = .ok v₁ := h1
      rw [hpr, foldLabels_ok_bind]
      have hv1 : ∀ f, v₁ f =
          match v f with
          | some q => some q
          | none => (rowTokenFor r (labelOf f)).bind (fun raw => (amountForToken raw).toOption) := by
        intro f
        have hc := hchar1 f
        rw [lmLabel_labelMap] at hc
        exact hc
      rcases ih v₁ with ⟨v₂, h2, hchar2, hnp2⟩ | ⟨m, f, raw, h2, hvf1, hsel, hbad⟩
      · left
        refine ⟨v₂, h2, fun f => ?_, fun f raw hv hsel => ?_⟩
        · have hc2 := hchar2 f
          have hc1 := hv1 f
          rcases hv : v f with _ | q
          · rw [hv] at hc1
            rcases hr : rowTokenFor r (labelOf f) with _ | raw
            · rw [hr] at hc1
              simp at hc1
              rw [hc1] at hc2
              simp at hc2
              rw [hc2]
              simp [selTok, rowTokenFor] at hr ⊢
              rw [hr]
            · have hne := hnp1 f (labelOf f) raw (lmLabel_labelMap f) hv hr
              rcases hq : (amountForToken raw).toOption with _ | q
              · exact absurd hq hne
              · rw [hr] at hc1
                simp [hq] at hc1
                rw [hc1] at hc2
                simp at hc2
                rw [hc2]
                simp [selTok, rowTokenFor] at hr ⊢
                rw [hr]
                simp [hq]
          · rw [hv] at hc1
            simp at hc1
            rw [hc1] at hc2
            simp at hc2
            rw [hc2]
        · simp only [selTok] at hsel
          rcases hr : rowTokenFor r (labelOf f) with _ | raw'
          · rw [hr] at hsel
            have hv1f : v₁ f = none := by
              rw [hv1 f, hv]
              simp [hr]
            exact hnp2 f raw hv1f hsel
          · rw [hr] at hsel
            injection hsel with he
            subst he
            exact hnp1 f (labelOf f) raw' (lmLabel_labelMap f) hv hr
      · right
        have hc1 := hv1 f
        rcases hv : v f with _ | q
        · rw [hv] at hc1
          rcases hr : rowTokenFor r (labelOf f) with _ | raw0
          · refine ⟨m, f, raw, h2, hv, ?_, hbad⟩
            simp only [selTok, rowTokenFor] at hr ⊢
            rw [hr]
            exact hsel
          · have hne := hnp1 f (labelOf f) raw0 (lmLabel_labelMap f) hv hr
            rw [hr] at hc1
            simp at hc1
            rcases hq : (amountForToken raw0).toOption with _ | q
            · exact absurd hq hne
            · rw [hq] at hc1
              rw [hc1] at hvf1
              cases hvf1
        · rw [hv] at hc1
          simp at hc1
          rw [hc1] at hvf1
          cases hvf1
    · right
      rw [lmLabel_labelMap] at hlm
      injection hlm with he
      subst he
      have hpr : processRow v r = .error (.parserError (.dataIntegrity m)) := h1
      refine ⟨m, f, raw, ?_, hvf, ?_, hbad⟩
      · rw [hpr, foldLabels_error_bind]
      · simp only [selTok, rowTokenFor]
        rw [hrt]

end TD

namespace TD

/-- If any one field's spec-side value is missing, the spec-side extractor
returns `none`. -/
theorem specExtractBalance_none (rows : List Row) (f : BField)
    (h : specField rows (labelOf f) = none) : specExtractBalance rows = none := by
  unfold specExtractBalance
  cases f <;> simp only [labelOf] at h
  · simp [h]
  · rcases hA : specField rows "PreviousBalance" with _ | a <;> simp [h]
  · rcases hA : specField rows "PreviousBalance" with _ | a <;>
      rcases hB : specField rows "Purchases" with _ | b <;> simp [h]
  · rcases hA : specField rows "PreviousBalance" with _ | a <;>
      rcases hB : specField rows "Purchases" with _ | b <;>
      rcases hC : specField rows "OtherCredits" with _ | c <;> simp [h]
  · rcases hA : specField rows "PreviousBalance" with _ | a <;>
      rcases hB : specField rows "Purchases" with _ | b <;>
      rcases hC : specField rows "OtherCredits" with _ | c <;>
      rcases hD : specField rows "FeesCharged" with _ | d <;> simp [h]
  · rcases hA : specField rows "PreviousBalance" with _ | a <;>
      rcases hB : specField rows "Purchases" with _ | b <;>
      rcases hC : specField rows "OtherCredits" with _ | c <;>
      rcases hD : specField rows "FeesCharged" with _ | d <;>
      rcases hE : specField rows "InterestCharged" with _ | e <;> simp [h]
  · rcases hA : specField rows "PreviousBalance" with _ | a <;>
      rcases hB : specField rows "Purchases" with _ | b <;>
      rcases hC : specField rows "OtherCredits" with _ | c <;>
      rcases hD : specField rows "FeesCharged" with _ | d <;>
      rcases hE : specField rows "InterestCharged" with _ | e <;>
      rcases hF : specField rows "NewBalance" with _ | g <;> simp [h]
  · rcases hA : specField rows "PreviousBalance" with _ | a <;>
      rcases hB : specField rows "Purchases" with _ | b <;>
      rcases hC : specField rows "OtherCredits" with _ | c <;>
      rcases hD : specField rows "FeesCharged" with _ | d <;>
      rcases hE : specField rows "InterestCharged" with _ | e <;>
      rcases hF : specField rows "NewBalance" with _ | g <;>
      rcases hG : specField rows "Available" with _ | i <;> simp [h]

end TD

namespace TD

/-- C3: amended.  For each of the 8 balance labels the extractor takes the
field's value from the first row that both contains the label substring
and offers a currency-pattern token right of the label coordinate (not
merely the first row containing the label), and it raises
`DataIntegrityError` exactly when some field never receives a parseable
value — either eagerly, when a selected token fails to parse, or at the
end, when a field was never assigned. -/
theorem c3_extract_balance_amended (rows : List Row) :
    match _extract_balance_summary rows with
    | .ok s => specExtractBalance rows = some s
    | .error e => specExtractBalance rows = none ∧
        ∃ m, e = .parserError (.dataIntegrity m) := by
  rcases foldRows_char rows initVals with ⟨v', hf, hchar, hnp⟩ | ⟨m, f, raw, hf, hv, hsel, hbad⟩
  · have hfld : ∀ g, v' g = specField rows (labelOf g) := by
      intro g
      have h := hchar g
      simpa [initVals, specField] using h
    rcases hmiss : (labelMap.map (fun p => p.2)).filter (fun f => (v' f).isNone) with _ | ⟨f0, fs⟩
    · have h8 : ∀ g ∈ labelMap.map (fun p => p.2), (v' g).isNone = false := by
        intro g hg
        by_contra hcon
        have hgt : (v' g).isNone = true := by
          cases hx : (v' g).isNone
          · exact absurd hx hcon
          · rfl
        have : g ∈ ([] : List BField) := by
          rw [← hmiss]
          exact List.mem_filter.mpr ⟨hg, hgt⟩
        simp at this
      have hP := h8 .previous_balance (by decide)
      have hQ := h8 .purchases (by decide)
      have hC := h8 .credits (by decide)
      have hD := h8 .fees (by decide)
      have hE := h8 .interest (by decide)
      have hN := h8 .new_balance (by decide)
      have hA := h8 .available_credit (by decide)
      have hM := h8 .minimum_payment (by decide)
      rcases hqP : v' .previous_balance with _ | a
      · rw [hqP] at hP; simp at hP
      rcases hqQ : v' .purchases with _ | b
      · rw [hqQ] at hQ; simp at hQ
      rcases hqC : v' .credits with _ | c
      · rw [hqC] at hC; simp at hC
      rcases hqD : v' .fees with _ | d
      · rw [hqD] at hD; simp at hD
      rcases hqE : v' .interest with _ | e
      · rw [hqE] at hE; simp at hE
      rcases hqN : v' .new_balance with _ | g
      · rw [hqN] at hN; simp at hN
      rcases hqA : v' .available_credit with _ | i
      · rw [hqA] at hA; simp at hA
      rcases hqM : v' .minimum_payment with _ | j
      · rw [hqM] at hM; simp at hM
      have hres : _extract_balance_summary rows =
          .ok { previous_balance := a, purchases := b, credits := c, fees := d,
                interest := e, new_balance := g, available_credit := i,
                minimum_payment := j } := by
        unfold _extract_balance_summary
        rw [hf]
        simp [hmiss, hqP, hqQ, hqC, hqD, hqE, hqN, hqA, hqM]
      rw [hres]
      have sP : specField rows "PreviousBalance" = some a := by
        have := hfld .previous_balance
        rw [hqP] at this
        simpa [labelOf] using this.symm
      have sQ : specField rows "Purchases" = some b := by
        have := hfld .purchases
        rw [hqQ] at this
        simpa [labelOf] using this.symm
      have sC : specField rows "OtherCredits" = some c := by
        have := hfld .credits
        rw [hqC] at this
        simpa [labelOf] using this.symm
      have sD : specField rows "FeesCharged" = some d := by
        have := hfld .fees
        rw [hqD] at this
        simpa [labelOf] using this.symm
      have sE : specField rows "InterestCharged" = some e := by
        have := hfld .interest
        rw [hqE] at this
        simpa [labelOf] using this.symm
      have sN : specField rows "NewBalance" = some g := by
        have := hfld .new_balance
        rw [hqN] at this
        simpa [labelOf] using this.symm
      have sA : specField rows "Available" = some i := by
        have := hfld .available_credit
        rw [hqA] at this
        simpa [labelOf] using this.symm
      have sM : specField rows "MinimumPaymentDue" = some j := by
        have := hfld .minimum_payment
        rw [hqM] at this
        simpa [labelOf] using this.symm
      simp [specExtractBalance, sP, sQ, sC, sD, sE, sN, sA, sM]
    · have hres : _extract_balance_summary rows =
          .error (.parserError (.dataIntegrity (missingMsg (f0 :: fs)))) := by
        unfold _extract_balance_summary
        rw [hf]
        simp [hmiss]
      rw [hres]
      refine ⟨?_, missingMsg (f0 :: fs), rfl⟩
      have hf0mem : f0 ∈ (labelMap.map (fun p => p.2)).filter (fun f => (v' f).isNone) := by
        rw [hmiss]
        exact List.mem_cons_self _ _
      have hnone := (List.mem_filter.mp hf0mem).2
      have hvf0 : v' f0 = none := by
        rcases hq : v' f0 with _ | q
        · rfl
        · rw [hq] at hnone
          simp at hnone
      apply specExtractBalance_none rows f0
      rw [← hfld f0]
      exact hvf0
  · have hres : _extract_balance_summary rows = .error (.parserError (.dataIntegrity m)) := by
      unfold _extract_balance_summary
      rw [hf]
    rw [hres]
    refine ⟨?_, m, rfl⟩
    apply specExtractBalance_none rows f
    simp [specField, hsel, hbad]

end TD

namespace TD

set_option maxRecDepth 4000 in
/-- C3 (counterexample): prepend a row reading `NewBalanceInfo` — its text
contains the label substring `NewBalance` but it offers no currency token.
Under the claim's literal reading (the field's value comes from THE first
row containing the label substring) the `new_balance` field is never
assigned and the extractor must raise `DataIntegrityError`; the code
instead falls through to the later `NewBalance  $3.00` row and succeeds. -/
theorem c3_first_label_row_counterexample :
    _extract_balance_summary
      [[⟨"NewBalanceInfo", 10, 100⟩],
       [⟨"PreviousBalance", 10, 100⟩, ⟨"$1.00", 50, 100⟩],
       [⟨"Purchases", 10, 100⟩, ⟨"$2.00", 50, 100⟩],
       [⟨"OtherCredits", 10, 100⟩, ⟨"$0.50", 50, 100⟩],
       [⟨"FeesCharged", 10, 100⟩, ⟨"$0.25", 50, 100⟩],
       [⟨"InterestCharged", 10, 100⟩, ⟨"$0.25", 50, 100⟩],
       [⟨"NewBalance", 10, 100⟩, ⟨"$3.00", 50, 100⟩],
       [⟨"Available", 10, 100⟩, ⟨"$100.00", 50, 100⟩],
       [⟨"MinimumPaymentDue", 10, 100⟩, ⟨"$0.00", 50, 100⟩]] =
      .ok ⟨1, 2, mkRat 1 2, mkRat 1 4, mkRat 1 4, 3, 100, 0⟩ ∧
    extract_balance_claim
      [[⟨"NewBalanceInfo", 10, 100⟩],
       [⟨"PreviousBalance", 10, 100⟩, ⟨"$1.00", 50, 100⟩],
       [⟨"Purchases", 10, 100⟩, ⟨"$2.00", 50, 100⟩],
       [⟨"OtherCredits", 10, 100⟩, ⟨"$0.50", 50, 100⟩],
       [⟨"FeesCharged", 10, 100⟩, ⟨"$0.25", 50, 100⟩],
       [⟨"InterestCharged", 10, 100⟩, ⟨"$0.25", 50, 100⟩],
       [⟨"NewBalance", 10, 100⟩, ⟨"$3.00", 50, 100⟩],
       [⟨"Available", 10, 100⟩, ⟨"$100.00", 50, 100⟩],
       [⟨"MinimumPaymentDue", 10, 100⟩, ⟨"$0.00", 50, 100⟩]] = none := by decide

end TD
